import Mathlib

/-!
Verification of the natural-language specification of the `vscode-lldb`
debug adapter core (`src/adapter2/src/debug_session.rs`) against a shallow
embedding of that file's code in Lean 4.

The embedding models:
 * the pure helpers `compose_eval_name`, `get_expr_format`,
   `get_expression_type` and the breakpoint condition callback
   `evaluate_python_bp_condition`;
 * the breakpoint reconciliation handlers `handle_set_breakpoints`,
   `set_source_breakpoints` and `handle_set_function_breakpoints`,
   with the LLDB target modelled as an id-indexed store of engine
   breakpoints and a resolution oracle;
 * the deferred-responder protocol of `handle_configuration_done`;
 * `handle_disconnect` and the argument-less request dispatch path;
 * `notify_process_stopped` / `update_threads` event translation.

Rust `HashMap`s are modelled as association lists with first-match lookup
(`alookup`); `HashMap::insert` is `alinsert` (replace), `HashMap::remove`
is `alerase` (drop all entries of the key), `Entry::or_insert` is
`alinsert_new`.
-/

namespace Adapter

/-- First-match lookup in an association list; models `HashMap::get`. -/
def alookup {α β : Type} [DecidableEq α] : List (α × β) → α → Option β
  | [], _ => none
  | (k, v) :: rest, a => if k = a then some v else alookup rest a

/-- Remove every entry of key `k`; models `HashMap::remove` (keys are unique
in a real `HashMap`, so dropping all matches agrees with it). -/
def alerase {α β : Type} [DecidableEq α] (m : List (α × β)) (k : α) : List (α × β) :=
  m.filter (fun p => decide (¬ p.1 = k))

/-- Insert-or-replace; models `HashMap::insert`. -/
def alinsert {α β : Type} [DecidableEq α] (m : List (α × β)) (k : α) (v : β) : List (α × β) :=
  (k, v) :: alerase m k

/-- Insert only when the key is absent; models `Entry::or_insert`. -/
def alinsert_new {α β : Type} [DecidableEq α] (m : List (α × β)) (k : α) (v : β) : List (α × β) :=
  match alookup m k with
  | some _ => m
  | none => alinsert m k v

/-- Byte/char slicing helper: `&s[n..]` for an ASCII prefix of length `n`. -/
def string_drop (s : String) (n : Nat) : String :=
  String.mk (s.data.drop n)

/-- Models Rust `str::starts_with` for plain string patterns. -/
def str_starts_with (s pre : String) : Bool :=
  pre.data.isPrefixOf s.data

/-- LLDB display formats used by the adapter (`lldb::Format` values that
`debug_session.rs` mentions). -/
inductive Format
  | Default
  | Hex
  | Octal
  | Decimal
  | Binary
  | Float
  | Pointer
  | Unsigned
  | CString
  | Bytes
  | BytesWithASCII
deriving DecidableEq

/-- The format-suffix character table inlined in `get_expr_format`
(debug_session.rs:1089-1101); `None` models the `_ => return (expr, None)`
arm. -/
def char_to_format (c : Char) : Option Format :=
  match c with
  | 'h' => some Format.Hex
  | 'x' => some Format.Hex
  | 'o' => some Format.Octal
  | 'd' => some Format.Decimal
  | 'b' => some Format.Binary
  | 'f' => some Format.Float
  | 'p' => some Format.Pointer
  | 'u' => some Format.Unsigned
  | 's' => some Format.CString
  | 'y' => some Format.Bytes
  | 'Y' => some Format.BytesWithASCII
  | _ => none

/-- `get_expr_format` (debug_session.rs:1085-1107): two `next_back()` calls
on the char iterator inspect the last two characters; when they are a comma
followed by a format character, the remaining prefix (`chars.as_str()`) is
returned with the format, otherwise the expression is returned unchanged. -/
def get_expr_format (expr : String) : String × Option Format :=
  match expr.data.reverse with
  | ch :: c2 :: rest =>
    if c2 = ',' then
      match char_to_format ch with
      | some fmt => (String.mk rest.reverse, some fmt)
      | none => (expr, none)
    else (expr, none)
  | _ => (expr, none)

/-- `compose_eval_name` (debug_session.rs:1551-1567). `pfx`/`sfx` stand for
the Rust parameters `prefix`/`suffix` (reserved words in Lean). -/
def compose_eval_name (pfx sfx : String) : String :=
  if pfx = "" then
    sfx
  else if sfx = "" then
    pfx
  else if str_starts_with sfx "[" then
    pfx ++ sfx
  else
    pfx ++ "." ++ sfx

/-- Expression classification (`enum ExprType`, debug_session.rs:76-80). -/
inductive ExprType
  | Native
  | Python
  | Simple
deriving DecidableEq

/-- `get_expression_type` (debug_session.rs:1207-1218): classify an
expression by its prefix and strip the prefix. -/
def get_expression_type (expr : String) : String × ExprType :=
  if str_starts_with expr "/nat " then
    (string_drop expr 5, ExprType.Native)
  else if str_starts_with expr "/py " then
    (string_drop expr 4, ExprType.Python)
  else if str_starts_with expr "/se " then
    (string_drop expr 4, ExprType.Simple)
  else
    (expr, ExprType.Simple)

/-- The engine value returned by the script interpreter, reduced to the one
operation the condition callback performs on it: `try_value_as_unsigned`
(`Ok(n)` is `some n`, `Err(_)` is `none`). -/
structure SBValueModel where
  try_value_as_unsigned : Option Nat
deriving DecidableEq

/-- `PythonValue` (crate::python), with the variants used by
`debug_session.rs` (`SBValue`, `Int`, `Bool`, `String`, `Object`). -/
inductive PythonValue
  | SBValue (v : SBValueModel)
  | Int (n : Int)
  | Bool (b : Bool)
  | String (s : String)
  | Object (o : String)
deriving DecidableEq

/-- The breakpoint condition callback `evaluate_python_bp_condition`
(debug_session.rs:491-508), parametrized by the outcome of the external
`python::evaluate` call it makes (`Err` models an evaluation error). -/
def evaluate_python_bp_condition (eval_result : Except String PythonValue) : Bool :=
  match eval_result with
  | Except.error _ => true
  | Except.ok val =>
    match val with
    | PythonValue.SBValue v =>
      match v.try_value_as_unsigned with
      | some n => decide (n ≠ 0)
      | none => true
    | PythonValue.Bool b => b
    | _ => true

/-- The stop condition exactly as claim C5 words it: stop on evaluation
error, on a non-zero numeric value (or a numeric conversion failure), or on
a true boolean; "false in every other case". -/
def claim_bp_stop_condition (eval_result : Except String PythonValue) : Bool :=
  match eval_result with
  | Except.error _ => true
  | Except.ok val =>
    match val with
    | PythonValue.SBValue v =>
      match v.try_value_as_unsigned with
      | some n => decide (n ≠ 0)
      | none => true
    | PythonValue.Int n => decide (n ≠ 0)
    | PythonValue.Bool b => b
    | _ => false

namespace Cfg

/-!
Model of the deferred-responder protocol: `handle_request` dispatch of a
`configurationDone` request (debug_session.rs:197-199, 247-248) and
`handle_configuration_done` (debug_session.rs:708-714).
-/

/-- Adapter error type (crate::error::Error), reduced to its message. -/
inductive Error
  | internal (msg : String)
  | userError (msg : String)
deriving DecidableEq, BEq

/-- `format!("{}", err)` used when serializing a failed response. -/
def error_message : Error → String
  | Error.internal msg => msg
  | Error.userError msg => msg

/-- The response bodies this model distinguishes. -/
inductive ResponseBody
  | launch
  | configurationDone
  | other (name : String)
deriving DecidableEq, BEq

/-- A DAP response (debug_protocol `Response`). -/
structure Response where
  request_seq : Nat
  success : Bool
  message : Option String
  body : Option ResponseBody
deriving DecidableEq, BEq

/-- Outbound protocol messages, in emission order. -/
inductive Msg
  | response (r : Response)
  | event (name : String)
deriving DecidableEq, BEq

/-- A deferred responder (`Box<AsyncResponder>`): the closure stored by
`launch`/`attach` is modelled by the messages it emits while running plus
the `Result<ResponseBody, Error>` it returns. -/
def Responder : Type := List Msg × Except Error ResponseBody

/-- The session state relevant to the deferred-responder protocol:
the `on_configuration_done` slot and the outbound message queue. -/
structure Session where
  on_configuration_done : Option (Nat × Responder)
  out : List Msg

/-- `self.on_configuration_done.take()`. -/
def take_on_configuration_done (s : Session) :
    Option (Nat × Responder) × Session :=
  (s.on_configuration_done, { s with on_configuration_done := none })

/-- `send_response` (debug_session.rs:251-272). -/
def send_response (s : Session) (request_seq : Nat)
    (result : Except Error ResponseBody) : Session :=
  match result with
  | Except.ok body =>
    { s with out := s.out ++ [Msg.response ⟨request_seq, true, none, some body⟩] }
  | Except.error err =>
    { s with out := s.out ++ [Msg.response ⟨request_seq, false, some (error_message err), none⟩] }

/-- The `Msg` that `send_response` emits for a given seq and result. -/
def response_of (request_seq : Nat) (result : Except Error ResponseBody) : Msg :=
  match result with
  | Except.ok body => Msg.response ⟨request_seq, true, none, some body⟩
  | Except.error err => Msg.response ⟨request_seq, false, some (error_message err), none⟩

/-- `handle_configuration_done` (debug_session.rs:708-714): take the
deferred responder out of the slot, run it, and send its result as the
response to the original launch/attach request. -/
def handle_configuration_done (s : Session) : Session × Except Error Unit :=
  match take_on_configuration_done s with
  | (some (request_seq, responder), s) =>
    let result := responder.2
    let s := { s with out := s.out ++ responder.1 }
    (send_response s request_seq result, Except.ok ())
  | (none, s) => (s, Except.ok ())

/-- The `configurationDone` arm of `handle_request` (debug_session.rs:
197-199) followed by the trailing `send_response` (debug_session.rs:248):
run `handle_configuration_done`, then answer the `configurationDone`
request itself. -/
def handle_request_configuration_done (s : Session) (seq : Nat) : Session :=
  let r := handle_configuration_done s
  send_response r.1 seq (r.2.map (fun _ => ResponseBody.configurationDone))

end Cfg

namespace Disc

/-!
Model of `handle_disconnect` (debug_session.rs:1306-1326) and the
argument-less branch of `handle_request` (debug_session.rs:244-246).
-/

/-- Engine-side actions the disconnect path performs, in order. -/
inductive EngineAction
  | exec_command (cmd : String)
  | kill
  | detach
deriving DecidableEq

/-- DAP `DisconnectArguments`, reduced to the field the handler reads. -/
structure DisconnectArguments where
  terminate_debuggee : Option Bool
deriving DecidableEq

/-- The request arguments this model distinguishes. -/
inductive RequestArguments
  | disconnect (args : DisconnectArguments)
  | other (name : String)
deriving DecidableEq

inductive ResponseBody
  | disconnect
  | other (name : String)
deriving DecidableEq

inductive Error
  | internal (msg : String)
deriving DecidableEq

def error_message : Error → String
  | Error.internal msg => msg

/-- An outbound response message. -/
inductive Msg
  | response (request_seq : Nat) (success : Bool) (message : Option String)
      (body : Option ResponseBody)
deriving DecidableEq

/-- Session state relevant to disconnect: `process` is `some pid` when the
`MustInitialize<SBProcess>` slot is `Initialized`. -/
structure Session where
  process : Option Nat
  process_launched : Bool
  exit_commands : Option (List String)
  engine_actions : List EngineAction
  cancellation_requested : Bool
  out : List Msg

/-- `send_response` (debug_session.rs:251-272). -/
def send_response (s : Session) (request_seq : Nat)
    (result : Except Error ResponseBody) : Session :=
  match result with
  | Except.ok body =>
    { s with out := s.out ++ [Msg.response request_seq true none (some body)] }
  | Except.error err =>
    { s with out := s.out ++ [Msg.response request_seq false (some (error_message err)) none] }

/-- `handle_disconnect` (debug_session.rs:1306-1326): run `exit_commands`,
decide kill-vs-detach (`terminate_debuggee` overrides `process_launched`),
apply it when a process is initialized, then request cancellation. -/
def handle_disconnect (s : Session) (args : Option DisconnectArguments) :
    Session × Except Error Unit :=
  let s :=
    match s.exit_commands with
    | some commands =>
      { s with engine_actions := s.engine_actions ++ commands.map EngineAction.exec_command }
    | none => s
  let terminate :=
    match args with
    | none => s.process_launched
    | some a =>
      match a.terminate_debuggee with
      | none => s.process_launched
      | some t => t
  let s :=
    match s.process with
    | some _ =>
      if terminate then
        { s with engine_actions := s.engine_actions ++ [EngineAction.kill] }
      else
        { s with engine_actions := s.engine_actions ++ [EngineAction.detach] }
    | none => s
  ({ s with cancellation_requested := true }, Except.ok ())

/-- `handle_request` (debug_session.rs:163-249), restricted to the variants
this model distinguishes. A request without an `arguments` field runs
`handle_disconnect(None)` and is answered with a `disconnect` body
(debug_session.rs:244-246); unknown requests fail with "Not implemented."
(debug_session.rs:239-242). -/
def handle_request (s : Session) (seq : Nat) (arguments : Option RequestArguments) :
    Session :=
  match arguments with
  | some (RequestArguments.disconnect args) =>
    let r := handle_disconnect s (some args)
    send_response r.1 seq (r.2.map (fun _ => ResponseBody.disconnect))
  | some (RequestArguments.other _) =>
    send_response s seq (Except.error (Error.internal "Not implemented."))
  | none =>
    let r := handle_disconnect s none
    send_response r.1 seq (r.2.map (fun _ => ResponseBody.disconnect))

/-- The exit-command actions prepended by `handle_disconnect`. -/
def exit_actions (exit_commands : Option (List String)) : List EngineAction :=
  (exit_commands.getD []).map EngineAction.exec_command

/-- The kill-or-detach action `handle_disconnect` performs when called
without arguments: nothing when no process is initialized, otherwise kill
exactly when `process_launched`. -/
def kill_or_detach (process : Option Nat) (process_launched : Bool) : List EngineAction :=
  match process with
  | some _ => [if process_launched then EngineAction.kill else EngineAction.detach]
  | none => []

end Disc

namespace Ev

/-!
Model of `notify_process_stopped` (debug_session.rs:1422-1482) and
`update_threads` (debug_session.rs:1485-1502).
-/

/-- `lldb::StopReason` variants. -/
inductive StopReason
  | Invalid
  | NoReason
  | Trace
  | Breakpoint
  | Watchpoint
  | Signal
  | Exception
  | Exec
  | PlanComplete
  | ThreadExiting
  | Instrumentation
deriving DecidableEq

/-- The per-thread state `notify_process_stopped` reads: id, stop reason,
stop description. `NoReason` stands for `StopReason::None`. -/
structure ThreadModel where
  thread_id : Nat
  stop_reason : StopReason
  stop_description : String
deriving DecidableEq

/-- The process state the two functions read: the thread list and the
currently selected thread (`SBProcess::selected_thread`, which LLDB always
returns; an invalid selection carries `StopReason::Invalid`). -/
structure ProcessModel where
  threads : List ThreadModel
  selected_thread : ThreadModel
deriving DecidableEq

/-- DAP `StoppedEventBody`. -/
structure StoppedEventBody where
  all_threads_stopped : Option Bool
  description : Option String
  preserve_focus_hint : Option Bool
  reason : String
  text : Option String
  thread_id : Option Int
deriving DecidableEq

/-- DAP `ThreadEventBody`. -/
structure ThreadEventBody where
  thread_id : Int
  reason : String
deriving DecidableEq

/-- The events this model emits. -/
inductive EventBody
  | stopped (body : StoppedEventBody)
  | thread (body : ThreadEventBody)
deriving DecidableEq

/-- Session state read and written by the stop-notification path. -/
structure Session where
  process : ProcessModel
  known_threads : List Nat
  loaded_modules : List Nat
  out : List EventBody

/-- `send_event` (debug_session.rs:274-282). -/
def emit (s : Session) (e : EventBody) : Session :=
  { s with out := s.out ++ [e] }

/-- `update_threads` (debug_session.rs:1485-1502): diff the current thread
ids against `known_threads`, emit `exited` events then `started` events,
and remember the current set. `known_threads` and the collected id set are
`HashSet`s; they are modelled as lists and the set differences as
`filter`s. -/
def update_threads (s : Session) : Session :=
  let threads := s.process.threads.map (fun t => t.thread_id)
  let started := threads.filter (fun t => decide (¬ t ∈ s.known_threads))
  let exited := s.known_threads.filter (fun t => decide (¬ t ∈ threads))
  let s := exited.foldl
    (fun s tid => emit s (EventBody.thread ⟨Int.ofNat tid, "exited"⟩)) s
  let s := started.foldl
    (fun s tid => emit s (EventBody.thread ⟨Int.ofNat tid, "started"⟩)) s
  { s with known_threads := threads }

/-- True for the stop reasons the stopped-thread scan treats as real
(everything but `Invalid` and `None`, debug_session.rs:1428-1432,
1436-1438). -/
def real_stop_reason (r : StopReason) : Bool :=
  match r with
  | StopReason.Invalid => false
  | StopReason.NoReason => false
  | _ => true

/-- The stopped-thread search of `notify_process_stopped`
(debug_session.rs:1424-1446): prefer the selected thread when its stop
reason is real, otherwise scan the thread list for the first thread with a
real reason and select it. -/
def find_stopped_thread (s : Session) : Session × Option ThreadModel :=
  match real_stop_reason s.process.selected_thread.stop_reason with
  | true => (s, some s.process.selected_thread)
  | false =>
    match s.process.threads.find? (fun t => real_stop_reason t.stop_reason) with
    | some t => ({ s with process := { s.process with selected_thread := t } }, some t)
    | none => (s, none)

/-- `notify_process_stopped` (debug_session.rs:1422-1482): update the
thread deltas, find the stopping thread, translate its stop reason, emit
the `stopped` event, and flush the deferred module notifications. -/
def notify_process_stopped (s : Session) : Session :=
  let s := update_threads s
  let r := find_stopped_thread s
  let s := r.1
  let stopped_thread := r.2
  let reason_description : String × Option String :=
    match stopped_thread with
    | some st =>
      match st.stop_reason with
      | StopReason.Breakpoint => ("breakpoint", none)
      | StopReason.Trace => ("step", none)
      | StopReason.PlanComplete => ("step", none)
      | r =>
        let description := some st.stop_description
        match r with
        | StopReason.Watchpoint => ("watchpoint", description)
        | StopReason.Signal => ("signal", description)
        | StopReason.Exception => ("exception", description)
        | _ => ("unknown", description)
    | none => ("unknown", none)
  let s := emit s (EventBody.stopped
    { all_threads_stopped := some true
      description := none
      preserve_focus_hint := none
      reason := reason_description.1
      text := reason_description.2
      thread_id := stopped_thread.map (fun t => Int.ofNat t.thread_id) })
  { s with loaded_modules := [] }

/-- The stop-reason translation exactly as claim C6 words it. -/
def claim_stop_reason_map (r : StopReason) (descr : String) : String × Option String :=
  match r with
  | StopReason.Breakpoint => ("breakpoint", none)
  | StopReason.Trace => ("step", none)
  | StopReason.PlanComplete => ("step", none)
  | StopReason.Watchpoint => ("watchpoint", some descr)
  | StopReason.Signal => ("signal", some descr)
  | StopReason.Exception => ("exception", some descr)
  | _ => ("unknown", some descr)

end Ev

namespace Bp

/-!
Model of the breakpoint handlers: `handle_set_breakpoints`
(debug_session.rs:331-357), `set_source_breakpoints`
(debug_session.rs:359-426), `handle_set_function_breakpoints`
(debug_session.rs:428-484), `init_bp_actions` (debug_session.rs:490-531)
and `is_valid_source_bp_location` (debug_session.rs:533-543).

The LLDB target is modelled as an id-indexed store of engine breakpoints
plus resolution oracles: `resolve_location name line` is the location list
the engine produces for `breakpoint_create_by_location(name, line)`, and
similarly for `resolve_name`/`resolve_regex`.
-/

abbrev BreakpointID := Nat

/-- `enum FileId` (debug_session.rs:37-41). -/
inductive FileId
  | Filename (name : String)
  | Disassembly (handle : Nat)
deriving DecidableEq

/-- `enum BreakpointKind` (debug_session.rs:43-56); the `Assembly` payload
is reduced to the address. -/
inductive BreakpointKind
  | Source (file_path : String) (resolved_line : Option Nat)
      (valid_locations : List BreakpointID)
  | Function
  | Assembly (address : Nat)
  | Exception
deriving DecidableEq

/-- `struct BreakpointInfo` (debug_session.rs:58-65). -/
structure BreakpointInfo where
  id : BreakpointID
  kind : BreakpointKind
  condition : Option String
  log_message : Option String
  ignore_count : Nat
deriving DecidableEq

instance : Inhabited BreakpointInfo :=
  ⟨⟨0, BreakpointKind.Function, none, none, 0⟩⟩

/-- An engine breakpoint location: the line of its address's line entry (if
any) and its enabled flag. -/
structure BpLocation where
  line_entry : Option Nat
  enabled : Bool
deriving DecidableEq

/-- How an engine breakpoint was created. -/
inductive BpSpec
  | ByLocation (file_name : String) (line : Nat)
  | ByName (name : String)
  | ByRegex (re : String)
deriving DecidableEq

/-- The callback installed by `init_bp_actions` for non-native conditions:
it evaluates the preprocessed expression (`preprocess_simple_expr` /
`preprocess_python_expr` are external collaborators, kept symbolic). -/
inductive BpCallback
  | simpleExpr (expr : String)
  | pythonExpr (expr : String)
deriving DecidableEq

/-- An engine (`SBBreakpoint`) record. -/
structure EngineBreakpoint where
  spec : BpSpec
  locations : List BpLocation
  condition : Option String
  callback : Option BpCallback
deriving DecidableEq

/-- The LLDB target: resolution oracles, the id allocator, and the engine
breakpoint store. -/
structure Target where
  resolve_location : String → Nat → List BpLocation
  resolve_name : String → List BpLocation
  resolve_regex : String → List BpLocation
  next_bp_id : BreakpointID
  engine_bps : List (BreakpointID × EngineBreakpoint)

/-- `SBTarget::breakpoint_create_by_location(file_name, line)`. -/
def breakpoint_create_by_location (t : Target) (file_name : String) (line : Nat) :
    Target × BreakpointID × List BpLocation :=
  let id := t.next_bp_id
  let locs := t.resolve_location file_name line
  ({ t with
      next_bp_id := id + 1
      engine_bps := t.engine_bps ++ [(id, ⟨BpSpec.ByLocation file_name line, locs, none, none⟩)] },
   id, locs)

/-- `SBTarget::breakpoint_create_by_name(name)`. -/
def breakpoint_create_by_name (t : Target) (name : String) : Target × BreakpointID :=
  let id := t.next_bp_id
  let locs := t.resolve_name name
  ({ t with
      next_bp_id := id + 1
      engine_bps := t.engine_bps ++ [(id, ⟨BpSpec.ByName name, locs, none, none⟩)] },
   id)

/-- `SBTarget::breakpoint_create_by_regex(re)`. -/
def breakpoint_create_by_regex (t : Target) (re : String) : Target × BreakpointID :=
  let id := t.next_bp_id
  let locs := t.resolve_regex re
  ({ t with
      next_bp_id := id + 1
      engine_bps := t.engine_bps ++ [(id, ⟨BpSpec.ByRegex re, locs, none, none⟩)] },
   id)

/-- `SBTarget::breakpoint_delete(id)`. Engine ids are unique, so removing
every entry of the id models the engine delete. -/
def breakpoint_delete (t : Target) (id : BreakpointID) : Target :=
  { t with engine_bps := t.engine_bps.filter (fun p => decide (¬ p.1 = id)) }

/-- Apply `f` to the engine breakpoint with the given id. -/
def update_bp (t : Target) (id : BreakpointID) (f : EngineBreakpoint → EngineBreakpoint) :
    Target :=
  { t with engine_bps := t.engine_bps.map (fun p => if p.1 = id then (p.1, f p.2) else p) }

/-- `SBBreakpoint::set_condition`. -/
def bp_set_condition (t : Target) (id : BreakpointID) (cond : String) : Target :=
  update_bp t id (fun b => { b with condition := some cond })

/-- `SBBreakpoint::set_callback`. -/
def bp_set_callback (t : Target) (id : BreakpointID) (cb : BpCallback) : Target :=
  update_bp t id (fun b => { b with callback := some cb })

/-- `SBBreakpoint::clear_callback`. -/
def bp_clear_callback (t : Target) (id : BreakpointID) : Target :=
  update_bp t id (fun b => { b with callback := none })

/-- `SBBreakpointLocation::set_enabled(false)` for a location of the given
breakpoint (never actually reached: `is_valid_source_bp_location` always
returns true). -/
def bp_set_location_enabled (t : Target) (id : BreakpointID) (loc : BpLocation)
    (enabled : Bool) : Target :=
  update_bp t id (fun b =>
    { b with locations := b.locations.map (fun l => if l = loc then { l with enabled } else l) })

/-- `SBBreakpoint::num_resolved_locations`. -/
def num_resolved_locations (t : Target) (id : BreakpointID) : Nat :=
  match alookup t.engine_bps id with
  | some bp => bp.locations.length
  | none => 0

/-- DAP `SourceBreakpoint` (the fields the handler reads). -/
structure SourceBreakpoint where
  line : Int
  condition : Option String := none
  log_message : Option String := none
deriving DecidableEq

/-- DAP `FunctionBreakpoint` (the fields the handler reads). -/
structure FunctionBreakpoint where
  name : String
  condition : Option String := none
deriving DecidableEq

/-- DAP `Source` (the fields `set_source_breakpoints` fills in);
`adapter_data` holds `json!(bp_info.id)`. -/
structure Source where
  name : Option String := none
  path : Option String := none
  adapter_data : Option BreakpointID := none
deriving DecidableEq

/-- DAP response `Breakpoint` (the fields the handlers fill in). -/
structure Breakpoint where
  id : Option Int := none
  verified : Bool := false
  line : Option Int := none
  source : Option Source := none
deriving DecidableEq

/-- The session state the breakpoint handlers touch. -/
structure Session where
  target : Target
  source_breakpoints : List (FileId × List (Int × BreakpointID))
  fn_breakpoints : List (String × BreakpointID)
  breakpoints : List (BreakpointID × BreakpointInfo)

/-- `req.line as u32`: an `i64`'s low 32 bits. -/
def i64_as_u32 (line : Int) : Nat :=
  (line % 4294967296).toNat

/-- `Path::new(file_path).file_name()` for Unix-style paths: the component
after the last separator (the whole path when it has no separator). -/
def path_file_name (file_path : String) : String :=
  String.mk ((file_path.data.reverse.takeWhile (fun c => decide (¬ c = '/'))).reverse)

/-- `init_bp_actions` (debug_session.rs:490-531): classify the condition;
a native condition is set on the engine breakpoint, a simple/python
condition installs the evaluation callback, no condition clears the
callback. (The hit count and log message are recognized but not wired:
`// TODO: hit count & log_message`.) -/
def init_bp_actions (t : Target) (bp_id : BreakpointID) (bp_info : BreakpointInfo) :
    Target :=
  match bp_info.condition with
  | some condition =>
    let r := get_expression_type condition
    match r.2 with
    | ExprType.Native => bp_set_condition t bp_id r.1
    | ExprType.Simple => bp_set_callback t bp_id (BpCallback.simpleExpr r.1)
    | ExprType.Python => bp_set_callback t bp_id (BpCallback.pythonExpr r.1)
  | none => bp_clear_callback t bp_id

/-- `is_valid_source_bp_location` (debug_session.rs:533-543): record the
location's line as `resolved_line` when it has a line entry; always accept
the location. -/
def is_valid_source_bp_location (bp_loc : BpLocation) (bp_info : BreakpointInfo) :
    Bool × BreakpointInfo :=
  let bp_info :=
    match bp_loc.line_entry with
    | some line =>
      match bp_info.kind with
      | BreakpointKind.Source fp _ vl =>
        { bp_info with kind := BreakpointKind.Source fp (some line) vl }
      | _ => bp_info
    | none => bp_info
  (true, bp_info)

/-- The location loop of the new-breakpoint branch
(debug_session.rs:393-399): run `is_valid_source_bp_location` on every
location, disabling the ones it rejects (it rejects none). -/
def filter_locations (t : Target) (bp_id : BreakpointID) (locs : List BpLocation)
    (bp_info : BreakpointInfo) : Target × BreakpointInfo :=
  locs.foldl
    (fun acc loc =>
      let r := is_valid_source_bp_location loc acc.2
      if r.1 then (acc.1, r.2) else (bp_set_location_enabled acc.1 bp_id loc false, r.2))
    (t, bp_info)

/-- The resolved line produced by folding `is_valid_source_bp_location`
over a location list: the line entry of the last location that has one. -/
def resolved_fold (r : Option Nat) (locs : List BpLocation) : Option Nat :=
  locs.foldl
    (fun acc loc =>
      match loc.line_entry with
      | some line => some line
      | none => acc)
    r

/-- `resolved_line` recorded for a freshly created source breakpoint. -/
def resolved_line_of_locations (locs : List BpLocation) : Option Nat :=
  resolved_fold none locs

/-- One iteration of the `for req in requested_bps` loop of
`set_source_breakpoints` (debug_session.rs:364-424): reuse the existing
breakpoint for the line, or create one, filter its locations, fill in the
response record and register it; then update condition/log-message and run
`init_bp_actions`. -/
def set_source_bp_step (s : Session) (existing_bps : List (Int × BreakpointID))
    (req : SourceBreakpoint) (file_path : String) :
    Session × List (Int × BreakpointID) × Breakpoint :=
  match alookup existing_bps req.line with
  | some bp_id =>
    -- existing breakpoint for this line (debug_session.rs:367-372)
    let bp_info := (alookup s.breakpoints bp_id).getD default
    let bp_info := { bp_info with condition := req.condition, log_message := req.log_message }
    let s := { s with breakpoints := alinsert s.breakpoints bp_id bp_info }
    let s := { s with target := init_bp_actions s.target bp_id bp_info }
    (s, existing_bps,
     { id := some (Int.ofNat bp_id), verified := true, line := none, source := none })
  | none =>
    -- new breakpoint (debug_session.rs:373-416)
    let file_name := path_file_name file_path
    let created := breakpoint_create_by_location s.target file_name (i64_as_u32 req.line)
    let t := created.1
    let bp_id := created.2.1
    let locs := created.2.2
    let bp_info : BreakpointInfo :=
      ⟨bp_id, BreakpointKind.Source file_path none [], none, none, 0⟩
    let existing_bps := alinsert existing_bps req.line bp_id
    let filtered := filter_locations t bp_id locs bp_info
    let t := filtered.1
    let bp_info := filtered.2
    let bp_resp : Breakpoint :=
      match bp_info.kind with
      | BreakpointKind.Source _ (some line) _ =>
        { id := some (Int.ofNat bp_id), verified := true, line := some (Int.ofNat line),
          source := some { name := some file_name, path := some file_path,
                           adapter_data := some bp_id } }
      | _ => { id := some (Int.ofNat bp_id), verified := false, line := none, source := none }
    let bps := alinsert_new s.breakpoints bp_id bp_info
    let entry := (alookup bps bp_id).getD bp_info
    let entry := { entry with condition := req.condition, log_message := req.log_message }
    let bps := alinsert bps bp_id entry
    let s := { s with target := init_bp_actions t bp_id entry, breakpoints := bps }
    (s, existing_bps, bp_resp)

/-- `set_source_breakpoints` (debug_session.rs:359-426): iterate the
requested entries, producing one response `Breakpoint` per entry in
request order. -/
def set_source_breakpoints (s : Session) (existing_bps : List (Int × BreakpointID))
    (requested_bps : List SourceBreakpoint) (file_path : String) :
    Session × List (Int × BreakpointID) × List Breakpoint :=
  match requested_bps with
  | [] => (s, existing_bps, [])
  | req :: rest =>
    let r1 := set_source_bp_step s existing_bps req file_path
    let r2 := set_source_breakpoints r1.1 r1.2.1 rest file_path
    (r2.1, r2.2.1, r1.2.2 :: r2.2.2)

/-- The delete half of the partition loop of `handle_set_breakpoints`
(debug_session.rs:337-345): each old entry whose line is no longer
requested is deleted from the engine and removed from the registry. -/
def delete_unrequested (s : Session) (removed : List (Int × BreakpointID)) : Session :=
  removed.foldl
    (fun s p =>
      { s with
          target := breakpoint_delete s.target p.2
          breakpoints := alerase s.breakpoints p.2 })
    s

/-- `handle_set_breakpoints` (debug_session.rs:331-357): take the file's
existing line map out; delete the breakpoints whose line is no longer
requested from the engine and the registry, keep the others; run
`set_source_breakpoints`; store the updated line map back. -/
def handle_set_breakpoints (s : Session) (path : String)
    (requested_bps : List SourceBreakpoint) : Session × List Breakpoint :=
  let file_id := FileId.Filename path
  let old_existing_bps := (alookup s.source_breakpoints file_id).getD []
  let s := { s with source_breakpoints := alerase s.source_breakpoints file_id }
  let keep := fun (p : Int × BreakpointID) =>
    requested_bps.any (fun rbp => decide (rbp.line = p.1))
  let removed := old_existing_bps.filter (fun p => ! keep p)
  let survivors := old_existing_bps.filter keep
  let s := delete_unrequested s removed
  let r := set_source_breakpoints s survivors requested_bps path
  let s := r.1
  let s := { s with source_breakpoints := alinsert s.source_breakpoints file_id r.2.1 }
  (s, r.2.2)

/-- One iteration of the `for bp_req in args.breakpoints` loop of
`handle_set_function_breakpoints` (debug_session.rs:435-470). The
`fn_breakpoints` map read by the lookup is the session's (unchanged during
the loop); `new_fn` accumulates the new name map. -/
def set_fn_bp_step (s : Session) (new_fn : List (String × BreakpointID))
    (bp_req : FunctionBreakpoint) :
    Session × List (String × BreakpointID) × Breakpoint :=
  let found :=
    match alookup s.fn_breakpoints bp_req.name with
    | some bp_id =>
      let bp_info := (alookup s.breakpoints bp_id).getD default
      (s, bp_id, bp_info)
    | none =>
      let created :=
        if str_starts_with bp_req.name "/re " then
          breakpoint_create_by_regex s.target (string_drop bp_req.name 4)
        else
          breakpoint_create_by_name s.target bp_req.name
      let bp_id := created.2
      let bp_info : BreakpointInfo := ⟨bp_id, BreakpointKind.Function, none, none, 0⟩
      let bps := alinsert_new s.breakpoints bp_id bp_info
      let bp_info := (alookup bps bp_id).getD bp_info
      ({ s with target := created.1, breakpoints := bps }, bp_id, bp_info)
  let s := found.1
  let bp_id := found.2.1
  let bp_info := { found.2.2 with condition := bp_req.condition }
  let s := { s with breakpoints := alinsert s.breakpoints bp_id bp_info }
  let s := { s with target := init_bp_actions s.target bp_id bp_info }
  let new_fn := alinsert new_fn bp_req.name bp_id
  (s, new_fn,
   { id := some (Int.ofNat bp_id),
     verified := decide (num_resolved_locations s.target bp_id > 0),
     line := none, source := none })

/-- The request loop of `handle_set_function_breakpoints`. -/
def set_fn_breakpoints_loop (s : Session) (requested : List FunctionBreakpoint)
    (new_fn : List (String × BreakpointID)) :
    Session × List (String × BreakpointID) × List Breakpoint :=
  match requested with
  | [] => (s, new_fn, [])
  | bp_req :: rest =>
    let r1 := set_fn_bp_step s new_fn bp_req
    let r2 := set_fn_breakpoints_loop r1.1 rest r1.2.1
    (r2.1, r2.2.1, r1.2.2 :: r2.2.2)

/-- The deletion loop of `handle_set_function_breakpoints`
(debug_session.rs:472-477): delete from the engine every old function
breakpoint whose name is not in the new name map. Note that the registry
entry is NOT removed here. -/
def delete_unrequested_fn (s : Session) (new_fn : List (String × BreakpointID))
    (old_fn : List (String × BreakpointID)) : Session :=
  old_fn.foldl
    (fun s p =>
      if (alookup new_fn p.1).isSome then s
      else { s with target := breakpoint_delete s.target p.2 })
    s

/-- `handle_set_function_breakpoints` (debug_session.rs:428-484): process
the requests, then delete from the engine the old function breakpoints
whose name was not re-requested (their registry entry is NOT removed),
and replace the name map. -/
def handle_set_function_breakpoints (s : Session) (requested : List FunctionBreakpoint) :
    Session × List Breakpoint :=
  let r := set_fn_breakpoints_loop s requested []
  let s := r.1
  let new_fn := r.2.1
  let s := delete_unrequested_fn s new_fn s.fn_breakpoints
  let s := { s with fn_breakpoints := new_fn }
  (s, r.2.2)

/-- All breakpoint ids stored as values in the `source_breakpoints` index. -/
def source_index_values (s : Session) : List BreakpointID :=
  (s.source_breakpoints.map (fun p => p.2.map Prod.snd)).flatten

/-- All breakpoint ids stored as values in either index. -/
def bp_index_values (s : Session) : List BreakpointID :=
  source_index_values s ++ s.fn_breakpoints.map Prod.snd

/-- The registry inclusion invariant of the spec: every id stored in an
index is a key of the `breakpoints` registry. -/
def registry_inv (s : Session) : Prop :=
  ∀ id ∈ bp_index_values s, (alookup s.breakpoints id).isSome

/-- The `resolved_line` recorded in a registry entry. -/
def info_resolved_line (info : BreakpointInfo) : Option Nat :=
  match info.kind with
  | BreakpointKind.Source _ resolved _ => resolved
  | _ => none

end Bp

/-!
Statements of the larger claims, as `Prop`-valued definitions, so that the
claim theorems and their witnesses can share them.
-/

/-- Well-formedness hypotheses for the `setBreakpoints` reconciliation
claim: engine ids and the ids recorded for the file are below the id
allocator, and the file records distinct ids per line. -/
def set_breakpoints_hypotheses (s : Bp.Session) (path : String) : Prop :=
  let old_map := (alookup s.source_breakpoints (Bp.FileId.Filename path)).getD []
  (∀ p ∈ s.target.engine_bps, p.1 < s.target.next_bp_id) ∧
  (∀ p ∈ old_map, p.2 < s.target.next_bp_id) ∧
  (old_map.map Prod.snd).Nodup

/-- Claim C1, stated over the model: after `handle_set_breakpoints` the
file's key set equals the requested line set; breakpoints of dropped lines
are deleted from engine and registry; every previously absent line gets
exactly one newly created engine breakpoint (and every newly created
engine breakpoint belongs to such a line); the response lists one
`Breakpoint` per request entry in request order, carrying that entry's
breakpoint id. -/
def set_breakpoints_reconciliation (s : Bp.Session) (path : String)
    (requested_bps : List Bp.SourceBreakpoint) : Prop :=
  let file_id := Bp.FileId.Filename path
  let old_map := (alookup s.source_breakpoints file_id).getD []
  let r := Bp.handle_set_breakpoints s path requested_bps
  let s' := r.1
  let resp := r.2
  let new_map := (alookup s'.source_breakpoints file_id).getD []
  let lines := requested_bps.map (fun rbp => rbp.line)
  ((∀ l : Int, (alookup new_map l).isSome ↔ l ∈ lines) ∧
   (∀ p ∈ old_map, p.1 ∉ lines →
     alookup s'.target.engine_bps p.2 = none ∧ alookup s'.breakpoints p.2 = none) ∧
   (∀ l ∈ lines, alookup old_map l = none →
     ∃ id bp, alookup new_map l = some id ∧
       alookup s.target.engine_bps id = none ∧
       alookup s'.target.engine_bps id = some bp ∧
       bp.spec = Bp.BpSpec.ByLocation (Bp.path_file_name path) (Bp.i64_as_u32 l)) ∧
   (∀ id, (alookup s'.target.engine_bps id).isSome →
     alookup s.target.engine_bps id = none →
     ∃ l, l ∈ lines ∧ alookup old_map l = none ∧ alookup new_map l = some id) ∧
   resp.length = requested_bps.length ∧
   (∀ i (h1 : i < resp.length) (h2 : i < requested_bps.length),
     (resp.get ⟨i, h1⟩).id =
       (alookup new_map (requested_bps.get ⟨i, h2⟩).line).map (fun id => Int.ofNat id)))

/-- Well-formedness hypotheses for the registry-invariant claim: the
invariant holds, index values are pairwise distinct, and they are below
the id allocator. -/
def registry_hypotheses (s : Bp.Session) : Prop :=
  Bp.registry_inv s ∧
  (Bp.bp_index_values s).Nodup ∧
  (∀ id ∈ Bp.bp_index_values s, id < s.target.next_bp_id)

/-- Claim C2 as amended: both handlers preserve the index-into-registry
inclusion invariant; removal from the source index removes the id from the
registry and deletes it in the engine; removal from the function index
deletes the id in the engine but leaves its registry entry in place. -/
def registry_invariant_conclusion (s : Bp.Session) : Prop :=
  (∀ (path : String) (requested_bps : List Bp.SourceBreakpoint),
    let r := Bp.handle_set_breakpoints s path requested_bps
    let s' := r.1
    let old_map := (alookup s.source_breakpoints (Bp.FileId.Filename path)).getD []
    Bp.registry_inv s' ∧
    (∀ p ∈ old_map, p.1 ∉ requested_bps.map (fun rbp => rbp.line) →
      alookup s'.breakpoints p.2 = none ∧ alookup s'.target.engine_bps p.2 = none)) ∧
  (∀ requested : List Bp.FunctionBreakpoint,
    let r := Bp.handle_set_function_breakpoints s requested
    let s' := r.1
    Bp.registry_inv s' ∧
    (∀ p ∈ s.fn_breakpoints, alookup s'.fn_breakpoints p.1 = none →
      alookup s'.target.engine_bps p.2 = none ∧
      ((alookup s.breakpoints p.2).isSome → (alookup s'.breakpoints p.2).isSome)))

/-- Claim C4 as amended, stated over the model: a response entry whose line
already had a breakpoint when it was processed (present for the file before
the request, or created by an earlier entry of the same request) is
reported `verified = true` with no line/source; an entry for which a
breakpoint is newly created is reported with
`verified = resolved_line.is_some()` and the resolved line/source exactly
when the line resolved. -/
def set_breakpoints_response_shape (s : Bp.Session) (path : String)
    (requested_bps : List Bp.SourceBreakpoint) : Prop :=
  let r := Bp.handle_set_breakpoints s path requested_bps
  let resp := r.2
  resp.length = requested_bps.length ∧
  (∀ i (h1 : i < resp.length) (h2 : i < requested_bps.length),
    let b := resp.get ⟨i, h1⟩
    let req := requested_bps.get ⟨i, h2⟩
    let had_bp :=
      (alookup ((alookup s.source_breakpoints (Bp.FileId.Filename path)).getD [])
        req.line).isSome = true ∨
      req.line ∈ (requested_bps.take i).map (fun rq => rq.line)
    (had_bp →
      b.verified = true ∧ b.line = none ∧ b.source = none ∧
      ∃ id, b.id = some (Int.ofNat id)) ∧
    (¬ had_bp →
      ∃ id,
        b.id = some (Int.ofNat id) ∧
        b.verified = (Bp.resolved_line_of_locations
          (s.target.resolve_location (Bp.path_file_name path)
            (Bp.i64_as_u32 req.line))).isSome ∧
        b.line = (Bp.resolved_line_of_locations
          (s.target.resolve_location (Bp.path_file_name path)
            (Bp.i64_as_u32 req.line))).map (fun l => Int.ofNat l) ∧
        b.source = (Bp.resolved_line_of_locations
          (s.target.resolve_location (Bp.path_file_name path)
            (Bp.i64_as_u32 req.line))).map (fun _ =>
          ({ name := some (Bp.path_file_name path), path := some path,
             adapter_data := some id } : Bp.Source))))

/-- Claim C9, stated over the model: an incoming request without an
`arguments` field runs the disconnect logic with no arguments — exit
commands, then kill exactly when `process_launched` (detach otherwise)
whenever a process is initialized — requests cancellation, and is answered
with a `disconnect` response body carrying the request's seq. -/
def no_arguments_disconnect (s : Disc.Session) (seq : Nat) : Prop :=
  let s' := Disc.handle_request s seq none
  s'.cancellation_requested = true ∧
  s'.engine_actions = s.engine_actions ++ Disc.exit_actions s.exit_commands ++
    Disc.kill_or_detach s.process s.process_launched ∧
  (s.process.isSome →
    ((Disc.EngineAction.kill ∈ Disc.kill_or_detach s.process s.process_launched) ↔
      s.process_launched = true)) ∧
  s'.out = s.out ++ [Disc.Msg.response seq true none (some Disc.ResponseBody.disconnect)]

/-- Claim C10, stated over the model: `update_threads` emits exactly one
`exited` event per vanished thread id, then exactly one `started` event
per new thread id (every `exited` before any `started`), and afterwards
`known_threads` equals the current thread-id set. -/
def update_threads_conclusion (s : Ev.Session) : Prop :=
  let current := s.process.threads.map (fun t => t.thread_id)
  let exited := s.known_threads.filter (fun t => decide (¬ t ∈ current))
  let started := current.filter (fun t => decide (¬ t ∈ s.known_threads))
  let s' := Ev.update_threads s
  s'.out = s.out ++
    exited.map (fun tid => Ev.EventBody.thread ⟨Int.ofNat tid, "exited"⟩) ++
    started.map (fun tid => Ev.EventBody.thread ⟨Int.ofNat tid, "started"⟩) ∧
  exited.Nodup ∧
  started.Nodup ∧
  (∀ t, t ∈ s'.known_threads ↔ t ∈ current)

/-!
Concrete states used by the witnesses and counterexamples.
-/

/-- A breakpoint location resolved at the given line. -/
def sample_loc (line : Nat) : Bp.BpLocation := ⟨some line, true⟩

/-- An engine source breakpoint resolved at the given line. -/
def sample_engine_bp (file : String) (line : Nat) : Bp.EngineBreakpoint :=
  ⟨Bp.BpSpec.ByLocation file line, [sample_loc line], none, none⟩

/-- A registry entry for a source breakpoint. -/
def sample_info (id : Bp.BreakpointID) (file : String) (line : Option Nat) :
    Bp.BreakpointInfo :=
  ⟨id, Bp.BreakpointKind.Source file line [], none, none, 0⟩

/-- Spec scenario S3: file `main.c` has breakpoints at lines 10 and 20
(engine ids 1 and 2); the next request asks for lines 10 and 30. -/
def s3_state : Bp.Session :=
  { target :=
      { resolve_location := fun _ line => [⟨some line, true⟩]
        resolve_name := fun _ => []
        resolve_regex := fun _ => []
        next_bp_id := 3
        engine_bps := [(1, sample_engine_bp "main.c" 10), (2, sample_engine_bp "main.c" 20)] }
    source_breakpoints := [(Bp.FileId.Filename "main.c", [(10, 1), (20, 2)])]
    fn_breakpoints := []
    breakpoints := [(1, sample_info 1 "main.c" (some 10)), (2, sample_info 2 "main.c" (some 20))] }

/-- The S3 request: lines 10 and 30. -/
def s3_request : List Bp.SourceBreakpoint := [⟨10, none, none⟩, ⟨30, none, none⟩]

/-- A state with one function breakpoint `"f"` (engine id 1, registered);
used to show that dropping it deletes it from the engine but not from the
registry. -/
def fn_state : Bp.Session :=
  { target :=
      { resolve_location := fun _ _ => []
        resolve_name := fun _ => []
        resolve_regex := fun _ => []
        next_bp_id := 2
        engine_bps := [(1, ⟨Bp.BpSpec.ByName "f", [], none, none⟩)] }
    source_breakpoints := []
    fn_breakpoints := [("f", 1)]
    breakpoints := [(1, ⟨1, Bp.BreakpointKind.Function, none, none, 0⟩)] }

/-- A state where file `main.c` has an existing breakpoint at line 10
whose registry entry has `resolved_line = None`; requesting line 10 again
exercises the existing-breakpoint response branch. -/
def unresolved_state : Bp.Session :=
  { target :=
      { resolve_location := fun _ _ => []
        resolve_name := fun _ => []
        resolve_regex := fun _ => []
        next_bp_id := 2
        engine_bps := [(1, ⟨Bp.BpSpec.ByLocation "main.c" 10, [], none, none⟩)] }
    source_breakpoints := [(Bp.FileId.Filename "main.c", [(10, 1)])]
    fn_breakpoints := []
    breakpoints := [(1, sample_info 1 "main.c" none)] }

/-- Spec scenario S2: a deferred launch responder for request seq 2 is
pending and emits no messages of its own. -/
def s2_state : Cfg.Session :=
  { on_configuration_done := some (2, ([], Except.ok Cfg.ResponseBody.launch))
    out := [] }

/-- The launch response of scenario S2. -/
def s2_launch_response : Cfg.Msg :=
  Cfg.Msg.response ⟨2, true, none, some Cfg.ResponseBody.launch⟩

/-- The configurationDone response of scenario S2. -/
def s2_cd_response : Cfg.Msg :=
  Cfg.Msg.response ⟨3, true, none, some Cfg.ResponseBody.configurationDone⟩

/-- Spec scenario S4: a launched process, no explicit terminate flag. -/
def s4_state : Disc.Session :=
  { process := some 1
    process_launched := true
    exit_commands := none
    engine_actions := []
    cancellation_requested := false
    out := [] }

/-- Spec scenario S6: one thread, stopped on SIGSEGV, already selected and
already known. -/
def s6_thread : Ev.ThreadModel := ⟨7, Ev.StopReason.Signal, "SIGSEGV"⟩

/-- The S6 session state. -/
def s6_state : Ev.Session :=
  { process := { threads := [s6_thread], selected_thread := s6_thread }
    known_threads := [7]
    loaded_modules := []
    out := [] }

/-- A thread-delta state: threads 1 and 2 were known, threads 2 and 3 are
current. -/
def delta_state : Ev.Session :=
  { process :=
      { threads := [⟨2, Ev.StopReason.NoReason, ""⟩, ⟨3, Ev.StopReason.NoReason, ""⟩]
        selected_thread := ⟨2, Ev.StopReason.NoReason, ""⟩ }
    known_threads := [1, 2]
    loaded_modules := []
    out := [] }

end Adapter

/-!
Helper lemmas about the association-list operations.
-/

namespace Adapter

theorem alookup_nil {α β : Type} [DecidableEq α] (k : α) :
    alookup ([] : List (α × β)) k = none := rfl

theorem alookup_cons {α β : Type} [DecidableEq α] (a k : α) (v : β) (m : List (α × β)) :
    alookup ((a, v) :: m) k = if a = k then some v else alookup m k := rfl

theorem alookup_mem {α β : Type} [DecidableEq α] {m : List (α × β)} {k : α} {v : β}
    (h : alookup m k = some v) : (k, v) ∈ m := by
  induction m with
  | nil => simp [alookup] at h
  | cons p rest ih =>
    obtain ⟨a, b⟩ := p
    rw [alookup_cons] at h
    by_cases hak : a = k
    · subst hak
      simp at h
      simp [h]
    · simp [hak] at h
      simp [ih h]

theorem alookup_eq_none_of_bound {α : Type} {β : Type} [DecidableEq α] [Preorder α]
    {m : List (α × β)} {n id : α}
    (hb : ∀ p ∈ m, p.1 < n) (hn : ¬ id < n) : alookup m id = none := by
  cases h : alookup m id with
  | none => rfl
  | some v => exact absurd (hb _ (alookup_mem h)) (by simpa using hn)

theorem alerase_cons_drop {α β : Type} [DecidableEq α] {a k : α} (b : β)
    (rest : List (α × β)) (h : a = k) :
    alerase ((a, b) :: rest) k = alerase rest k := by
  simp [alerase, List.filter_cons, h]

theorem alerase_cons_keep {α β : Type} [DecidableEq α] {a k : α} (b : β)
    (rest : List (α × β)) (h : ¬ a = k) :
    alerase ((a, b) :: rest) k = (a, b) :: alerase rest k := by
  simp [alerase, List.filter_cons, h]

theorem alookup_alerase_self {α β : Type} [DecidableEq α] (m : List (α × β)) (k : α) :
    alookup (alerase m k) k = none := by
  induction m with
  | nil => rfl
  | cons p rest ih =>
    obtain ⟨a, b⟩ := p
    by_cases hak : a = k
    · rw [alerase_cons_drop b rest hak]
      exact ih
    · rw [alerase_cons_keep b rest hak, alookup_cons, if_neg hak]
      exact ih

theorem alookup_alerase_ne {α β : Type} [DecidableEq α] (m : List (α × β)) {k k' : α}
    (h : ¬ k' = k) : alookup (alerase m k) k' = alookup m k' := by
  induction m with
  | nil => rfl
  | cons p rest ih =>
    obtain ⟨a, b⟩ := p
    by_cases hak : a = k
    · rw [alerase_cons_drop b rest hak, ih, alookup_cons,
        if_neg (fun ha : a = k' => h ((ha.symm).trans hak))]
    · rw [alerase_cons_keep b rest hak]
      by_cases hak' : a = k'
      · simp [alookup_cons, hak']
      · simp [alookup_cons, hak', ih]

theorem alookup_alinsert {α β : Type} [DecidableEq α] (m : List (α × β)) (k k' : α) (v : β) :
    alookup (alinsert m k v) k' = if k = k' then some v else alookup m k' := by
  by_cases h : k = k'
  · simp [alinsert, alookup_cons, h]
  · simp [alinsert, alookup_cons, h, alookup_alerase_ne m (fun hh => h hh.symm)]

theorem alookup_alinsert_self {α β : Type} [DecidableEq α] (m : List (α × β)) (k : α) (v : β) :
    alookup (alinsert m k v) k = some v := by
  simp [alookup_alinsert]

theorem alookup_alinsert_ne {α β : Type} [DecidableEq α] (m : List (α × β)) {k k' : α} (v : β)
    (h : ¬ k = k') : alookup (alinsert m k v) k' = alookup m k' := by
  simp [alookup_alinsert, h]

theorem alookup_alinsert_isSome_mono {α β : Type} [DecidableEq α] {m : List (α × β)}
    {k' : α} (k : α) (v : β)
    (h : (alookup m k').isSome) : (alookup (alinsert m k v) k').isSome := by
  by_cases hk : k = k'
  · simp [alookup_alinsert, hk]
  · simpa [alookup_alinsert, hk] using h

theorem alookup_alinsert_new_isSome_self {α β : Type} [DecidableEq α]
    (m : List (α × β)) (k : α) (v : β) : (alookup (alinsert_new m k v) k).isSome := by
  unfold alinsert_new
  cases h : alookup m k with
  | some w => simp [h]
  | none => simp [alookup_alinsert_self]

theorem alookup_alinsert_new_ne {α β : Type} [DecidableEq α] (m : List (α × β))
    {k k' : α} (v : β) (h : ¬ k = k') :
    alookup (alinsert_new m k v) k' = alookup m k' := by
  unfold alinsert_new
  cases hm : alookup m k with
  | some w => rfl
  | none => simp [alookup_alinsert_ne m v h]

theorem alookup_alinsert_new_isSome_mono {α β : Type} [DecidableEq α] {m : List (α × β)}
    {k' : α} (k : α) (v : β)
    (h : (alookup m k').isSome) : (alookup (alinsert_new m k v) k').isSome := by
  unfold alinsert_new
  cases hm : alookup m k with
  | some w => exact h
  | none => exact alookup_alinsert_isSome_mono k v h

theorem mem_alerase {α β : Type} [DecidableEq α] {m : List (α × β)} {k : α}
    {p : α × β} (h : p ∈ alerase m k) : p ∈ m ∧ ¬ p.1 = k := by
  rw [alerase, List.mem_filter] at h
  simpa using h

theorem mem_alinsert {α β : Type} [DecidableEq α] {m : List (α × β)} {k : α} {v : β}
    {p : α × β} (h : p ∈ alinsert m k v) : p = (k, v) ∨ (p ∈ m ∧ ¬ p.1 = k) := by
  rw [alinsert, List.mem_cons] at h
  rcases h with h | h
  · exact Or.inl h
  · exact Or.inr (mem_alerase h)

theorem alinsert_keys_nodup {α β : Type} [DecidableEq α] {m : List (α × β)} (k : α)
    (v : β) (h : (m.map Prod.fst).Nodup) :
    ((alinsert m k v).map Prod.fst).Nodup := by
  rw [alinsert, List.map_cons, List.nodup_cons]
  constructor
  · intro hmem
    obtain ⟨p, hp, hpk⟩ := List.mem_map.mp hmem
    exact (mem_alerase hp).2 hpk
  · refine List.Nodup.sublist ?_ h
    refine List.Sublist.map Prod.fst ?_
    exact List.filter_sublist m

theorem alookup_of_mem_of_nodup_keys {α β : Type} [DecidableEq α] {m : List (α × β)}
    (h : (m.map Prod.fst).Nodup) {p : α × β} (hp : p ∈ m) :
    alookup m p.1 = some p.2 := by
  induction m with
  | nil => simp at hp
  | cons q rest ih =>
    obtain ⟨a, b⟩ := q
    rw [List.map_cons, List.nodup_cons] at h
    rw [List.mem_cons] at hp
    rcases hp with hp | hp
    · subst hp
      rw [alookup_cons, if_pos rfl]
    · rw [alookup_cons]
      by_cases hak : a = p.1
      · exfalso
        apply h.1
        rw [hak]
        exact List.mem_map.mpr ⟨p, hp, rfl⟩
      · rw [if_neg hak]
        exact ih h.2 hp

theorem alookup_isSome_of_mem {α β : Type} [DecidableEq α] {m : List (α × β)}
    {k : α} {v : β} (h : (k, v) ∈ m) : (alookup m k).isSome := by
  induction m with
  | nil => simp at h
  | cons p rest ih =>
    obtain ⟨a, b⟩ := p
    rw [alookup_cons]
    by_cases hak : a = k
    · simp [hak]
    · simp only [List.mem_cons] at h
      rcases h with h | h

      · exact absurd (congrArg Prod.fst h).symm hak
      · simpa [hak] using ih h

theorem alookup_append_left {α β : Type} [DecidableEq α] {m₁ : List (α × β)}
    (m₂ : List (α × β)) {k : α} {v : β}
    (h : alookup m₁ k = some v) : alookup (m₁ ++ m₂) k = some v := by
  induction m₁ with
  | nil => simp [alookup] at h
  | cons p rest ih =>
    obtain ⟨a, b⟩ := p
    rw [alookup_cons] at h
    by_cases hak : a = k
    · simp_all [alookup_cons]
    · simp_all [alookup_cons]

theorem alookup_append_right {α β : Type} [DecidableEq α] {m₁ : List (α × β)}
    (m₂ : List (α × β)) {k : α}
    (h : alookup m₁ k = none) : alookup (m₁ ++ m₂) k = alookup m₂ k := by
  induction m₁ with
  | nil => rfl
  | cons p rest ih =>
    obtain ⟨a, b⟩ := p
    rw [alookup_cons] at h
    by_cases hak : a = k
    · simp [hak] at h
    · simp_all [alookup_cons]

theorem alookup_filter_key_true {α β : Type} [DecidableEq α] (m : List (α × β))
    (q : α × β → Bool) (k : α) (hq : ∀ v, q (k, v) = true)
    (h : (alookup m k).isSome) : (alookup (m.filter q) k).isSome := by
  induction m with
  | nil => simp [alookup] at h
  | cons p rest ih =>
    obtain ⟨a, b⟩ := p
    by_cases hak : a = k
    · subst hak
      rw [List.filter_cons, if_pos (by simp [hq b]), alookup_cons, if_pos rfl]
      rfl
    · rw [alookup_cons, if_neg hak] at h
      rw [List.filter_cons]
      by_cases hqp : q (a, b) = true
      · rw [if_pos (by simp [hqp]), alookup_cons, if_neg hak]
        exact ih h
      · rw [if_neg (by simp [hqp])]
        exact ih h

theorem string_data_append (s t : String) : (s ++ t).data = s.data ++ t.data := by
  cases s
  cases t
  rfl

theorem string_mk_data (s : String) : String.mk s.data = s := rfl

theorem string_eq_of_data {s t : String} (h : s.data = t.data) : s = t := by
  cases s
  cases t
  simp_all

theorem foldl_emit_out (f : Nat → Ev.EventBody) (l : List Nat) (s : Ev.Session) :
    (l.foldl (fun s tid => Ev.emit s (f tid)) s).out = s.out ++ l.map f := by
  induction l generalizing s with
  | nil => simp
  | cons tid rest ih =>
    rw [List.foldl_cons, ih]
    simp [Ev.emit]

theorem foldl_emit_known_threads (f : Nat → Ev.EventBody) (l : List Nat) (s : Ev.Session) :
    (l.foldl (fun s tid => Ev.emit s (f tid)) s).known_threads = s.known_threads := by
  induction l generalizing s with
  | nil => rfl
  | cons tid rest ih =>
    rw [List.foldl_cons, ih]
    rfl

end Adapter

open Adapter

/-!
The claim theorems, their witnesses and counterexamples.
-/

/-- C7: `compose_eval_name` returns the suffix for an empty prefix, the
prefix for an empty suffix, plain concatenation when the (non-empty)
suffix begins with `[`, and dot-joined concatenation otherwise; in
particular `compose_eval_name "a" "b" = "a.b"`. -/
theorem C7_compose_eval_name_laws :
    (∀ s : String, compose_eval_name "" s = s) ∧
    (∀ p : String, compose_eval_name p "" = p) ∧
    (∀ p s : String, ¬ p = "" → ¬ s = "" → str_starts_with s "[" = true →
      compose_eval_name p s = p ++ s) ∧
    (∀ p s : String, ¬ p = "" → ¬ s = "" → str_starts_with s "[" = false →
      compose_eval_name p s = p ++ "." ++ s) ∧
    compose_eval_name "a" "b" = "a.b" := by
  refine ⟨?_, ?_, ?_, ?_, ?_⟩
  · intro s
    simp [compose_eval_name]
  · intro p
    by_cases h : p = "" <;> simp [compose_eval_name, h]
  · intro p s hp hs hb
    simp [compose_eval_name, hp, hs, hb]
  · intro p s hp hs hb
    simp [compose_eval_name, hp, hs, hb]
  · decide

/-- Witness for C7 at concrete inputs. -/
theorem C7_witness :
    compose_eval_name "" "x" = "x" ∧
    compose_eval_name "p" "" = "p" ∧
    compose_eval_name "p" "[0]" = "p" ++ "[0]" ∧
    compose_eval_name "a" "b" = "a" ++ "." ++ "b" :=
  ⟨C7_compose_eval_name_laws.1 "x",
   C7_compose_eval_name_laws.2.1 "p",
   C7_compose_eval_name_laws.2.2.1 "p" "[0]" (by decide) (by decide) (by decide),
   C7_compose_eval_name_laws.2.2.2.1 "a" "b" (by decide) (by decide) (by decide)⟩

/-- C8: the format-suffix parser strips a trailing comma-plus-format
character pair and returns the corresponding format, and returns every
other expression unchanged with no format; in particular `"expr,h"` parses
to `("expr", Hex)`, `"expr"` to `("expr", None)` and `"foo,z"` to
`("foo,z", None)`. -/
theorem C8_format_suffix_strip :
    (∀ (e : String) (c : Char) (fmt : Format), char_to_format c = some fmt →
      get_expr_format (e ++ String.mk [',', c]) = (e, some fmt)) ∧
    (∀ expr : String,
      (∃ e c, (char_to_format c).isSome ∧ expr = e ++ String.mk [',', c] ∧
        get_expr_format expr = (e, char_to_format c)) ∨
      get_expr_format expr = (expr, none)) ∧
    get_expr_format "expr,h" = ("expr", some Format.Hex) ∧
    get_expr_format "expr" = ("expr", none) ∧
    get_expr_format "foo,z" = ("foo,z", none) := by
  refine ⟨?_, ?_, by decide, by decide, by decide⟩
  · intro e c fmt hc
    have hdata : (e ++ String.mk [',', c]).data.reverse = c :: ',' :: e.data.reverse := by
      simp [string_data_append]
    unfold get_expr_format
    rw [hdata]
    simp [hc, string_mk_data]
  · intro expr
    cases hrev : expr.data.reverse with
    | nil =>
      right
      unfold get_expr_format
      rw [hrev]
    | cons ch tl =>
      cases tl with
      | nil =>
        right
        unfold get_expr_format
        rw [hrev]
      | cons c2 rest =>
        by_cases hc2 : c2 = ','
        · subst hc2
          cases hcf : char_to_format ch with
          | none =>
            right
            unfold get_expr_format
            rw [hrev]
            simp [hcf]
          | some fmt =>
            left
            refine ⟨String.mk rest.reverse, ch, by simp [hcf], ?_, ?_⟩
            · apply string_eq_of_data
              have h2 : expr.data = rest.reverse ++ [',', ch] := by
                have h3 := congrArg List.reverse hrev
                simpa using h3
              simp [h2, string_data_append]
            · unfold get_expr_format
              rw [hrev]
              simp [hcf]
        · right
          unfold get_expr_format
          rw [hrev]
          simp [hc2]

/-- Witness for C8: the strip rule applied at `("expr", 'h')`. -/
theorem C8_witness :
    char_to_format 'h' = some Format.Hex ∧
    get_expr_format ("expr" ++ String.mk [',', 'h']) = ("expr", some Format.Hex) :=
  ⟨by decide, C8_format_suffix_strip.1 "expr" 'h' Format.Hex (by decide)⟩

/-- Counterexample to C5 as stated: a `String` interpreter result is
neither an evaluation error, nor a numeric value, nor a boolean, so the
claim requires the callback to return false on it; the code returns true
(the `_ => true` arm of `evaluate_python_bp_condition`,
debug_session.rs:505). -/
theorem C5_counterexample :
    evaluate_python_bp_condition (Except.ok (PythonValue.String "result")) = true ∧
    claim_bp_stop_condition (Except.ok (PythonValue.String "result")) = false :=
  ⟨rfl, rfl⟩

/-- C5 as amended: the callback returns true exactly on an evaluation
error, an engine value that converts to a non-zero unsigned (or fails to
convert), a true boolean, or any non-engine-value, non-boolean result
(`Int`, `String`, `Object`); it returns false only for an engine value
converting to 0 and for a false boolean. -/
theorem C5_condition_callback_amended :
    ∀ r : Except String PythonValue,
      evaluate_python_bp_condition r = true ↔
        ((∃ e, r = Except.error e) ∨
         (∃ v n, r = Except.ok (PythonValue.SBValue v) ∧
           v.try_value_as_unsigned = some n ∧ ¬ n = 0) ∨
         (∃ v, r = Except.ok (PythonValue.SBValue v) ∧ v.try_value_as_unsigned = none) ∨
         r = Except.ok (PythonValue.Bool true) ∨
         (∃ n, r = Except.ok (PythonValue.Int n)) ∨
         (∃ s, r = Except.ok (PythonValue.String s)) ∨
         (∃ o, r = Except.ok (PythonValue.Object o))) := by
  intro r
  cases r with
  | error e => simp [evaluate_python_bp_condition]
  | ok val =>
    cases val with
    | SBValue v =>
      cases hv : v.try_value_as_unsigned with
      | some n =>
        by_cases hn : n = 0 <;> simp [evaluate_python_bp_condition, hv, hn]
      | none => simp [evaluate_python_bp_condition, hv]
    | Int n => simp [evaluate_python_bp_condition]
    | Bool b => cases b <;> simp [evaluate_python_bp_condition]
    | String s => simp [evaluate_python_bp_condition]
    | Object o => simp [evaluate_python_bp_condition]

/-- Witness for C5's amended theorem at a concrete input. -/
theorem C5_witness :
    evaluate_python_bp_condition (Except.ok (PythonValue.Bool true)) = true ↔
      ((∃ e, (Except.ok (PythonValue.Bool true) : Except String PythonValue) = Except.error e) ∨
       (∃ v n, (Except.ok (PythonValue.Bool true) : Except String PythonValue) =
           Except.ok (PythonValue.SBValue v) ∧
         v.try_value_as_unsigned = some n ∧ ¬ n = 0) ∨
       (∃ v, (Except.ok (PythonValue.Bool true) : Except String PythonValue) =
           Except.ok (PythonValue.SBValue v) ∧ v.try_value_as_unsigned = none) ∨
       (Except.ok (PythonValue.Bool true) : Except String PythonValue) =
         Except.ok (PythonValue.Bool true) ∨
       (∃ n, (Except.ok (PythonValue.Bool true) : Except String PythonValue) =
         Except.ok (PythonValue.Int n)) ∨
       (∃ s, (Except.ok (PythonValue.Bool true) : Except String PythonValue) =
         Except.ok (PythonValue.String s)) ∨
       (∃ o, (Except.ok (PythonValue.Bool true) : Except String PythonValue) =
         Except.ok (PythonValue.Object o))) :=
  C5_condition_callback_amended (Except.ok (PythonValue.Bool true))

/-- Counterexample to C3 as stated: with the S2 deferred launch responder
(request seq 2) pending, handling `configurationDone` (seq 3) emits the
launch response BEFORE the configurationDone response —
`handle_configuration_done` sends the deferred reply inside the handler
(debug_session.rs:711) and the dispatcher sends the configurationDone
reply only afterwards (debug_session.rs:248) — so the claimed
configurationDone-first order is false. -/
theorem C3_counterexample :
    (Cfg.handle_request_configuration_done s2_state 3).out =
      [s2_launch_response, s2_cd_response] ∧
    ¬ ((Cfg.handle_request_configuration_done s2_state 3).out.indexOf s2_cd_response <
       (Cfg.handle_request_configuration_done s2_state 3).out.indexOf s2_launch_response) := by
  constructor
  · rfl
  · decide

/-- C3 as amended: handling `configurationDone` first clears the deferred
responder slot, then emits the deferred launch Response (carrying the
original launch request's seq, after any messages the responder itself
produced), and only afterwards emits the Response for the
`configurationDone` request itself. -/
theorem C3_deferred_launch_response_order (s : Cfg.Session) (seq m : Nat)
    (responder : Cfg.Responder)
    (h : s.on_configuration_done = some (m, responder)) :
    (Cfg.handle_request_configuration_done s seq).on_configuration_done = none ∧
    (Cfg.take_on_configuration_done s).2.on_configuration_done = none ∧
    (Cfg.handle_request_configuration_done s seq).out =
      s.out ++ responder.1 ++
        [Cfg.response_of m responder.2,
         Cfg.Msg.response ⟨seq, true, none, some Cfg.ResponseBody.configurationDone⟩] := by
  obtain ⟨msgs, result⟩ := responder
  refine ⟨?_, rfl, ?_⟩
  · cases result <;>
      simp [Cfg.handle_request_configuration_done, Cfg.handle_configuration_done,
        Cfg.take_on_configuration_done, h, Cfg.send_response, Except.map]
  · cases result <;>
      simp [Cfg.handle_request_configuration_done, Cfg.handle_configuration_done,
        Cfg.take_on_configuration_done, h, Cfg.send_response, Cfg.response_of,
        Except.map, List.append_assoc]

/-- Witness for C3's amended theorem: the S2 scenario. -/
theorem C3_witness :
    s2_state.on_configuration_done = some (2, ([], Except.ok Cfg.ResponseBody.launch)) ∧
    ((Cfg.handle_request_configuration_done s2_state 3).on_configuration_done = none ∧
     (Cfg.take_on_configuration_done s2_state).2.on_configuration_done = none ∧
     (Cfg.handle_request_configuration_done s2_state 3).out =
       s2_state.out ++ [] ++
         [Cfg.response_of 2 (Except.ok Cfg.ResponseBody.launch),
          Cfg.Msg.response ⟨3, true, none, some Cfg.ResponseBody.configurationDone⟩]) :=
  ⟨rfl, C3_deferred_launch_response_order s2_state 3 2
    ([], Except.ok Cfg.ResponseBody.launch) rfl⟩

/-- C9: an incoming request with no `arguments` field is handled as a
disconnect: exit commands run, the inferior is killed exactly when
`process_launched` (detached otherwise) whenever a process is initialized,
cancellation is requested, and the request is answered with a `disconnect`
response body. -/
theorem C9_no_arguments_request_disconnects (s : Disc.Session) (seq : Nat) :
    no_arguments_disconnect s seq := by
  obtain ⟨proc, launched, exitc, acts, cancel, out⟩ := s
  cases exitc <;> cases proc <;> cases launched <;>
    simp [no_arguments_disconnect, Disc.handle_request, Disc.handle_disconnect,
      Disc.send_response, Disc.exit_actions, Disc.kill_or_detach, Except.map]

/-- Witness for C9: the S4 scenario (launched process, no arguments). -/
theorem C9_witness : no_arguments_disconnect s4_state 5 :=
  C9_no_arguments_request_disconnects s4_state 5

/-- C6: for every stop notification with a stopping thread, the emitted
stopped event has `all_threads_stopped = true`, its reason/text follow the
claimed mapping of the thread's stop reason (`Breakpoint` to breakpoint,
`Trace`/`PlanComplete` to step, `Watchpoint`/`Signal`/`Exception` to their
names with `stop_description` as text, anything else to unknown with the
description), and it carries the thread's id. -/
theorem C6_stopped_event_mapping (s s₁ : Ev.Session) (st : Ev.ThreadModel)
    (h : Ev.find_stopped_thread (Ev.update_threads s) = (s₁, some st)) :
    (Ev.notify_process_stopped s).out =
      s₁.out ++ [Ev.EventBody.stopped
        { all_threads_stopped := some true
          description := none
          preserve_focus_hint := none
          reason := (Ev.claim_stop_reason_map st.stop_reason st.stop_description).1
          text := (Ev.claim_stop_reason_map st.stop_reason st.stop_description).2
          thread_id := some (Int.ofNat st.thread_id) }] := by
  obtain ⟨tid, sr, sd⟩ := st
  cases sr <;>
    simp [Ev.notify_process_stopped, h, Ev.emit, Ev.claim_stop_reason_map]

/-- Witness for C6: the S6 scenario (thread stopped on SIGSEGV). -/
theorem C6_witness :
    Ev.find_stopped_thread (Ev.update_threads s6_state) =
      (Ev.update_threads s6_state, some s6_thread) ∧
    (Ev.notify_process_stopped s6_state).out =
      (Ev.update_threads s6_state).out ++ [Ev.EventBody.stopped
        { all_threads_stopped := some true
          description := none
          preserve_focus_hint := none
          reason := (Ev.claim_stop_reason_map s6_thread.stop_reason s6_thread.stop_description).1
          text := (Ev.claim_stop_reason_map s6_thread.stop_reason s6_thread.stop_description).2
          thread_id := some (Int.ofNat s6_thread.thread_id) }] :=
  ⟨rfl, C6_stopped_event_mapping s6_state (Ev.update_threads s6_state) s6_thread rfl⟩

/-- C10: `update_threads` emits one `exited` event per vanished thread id,
then one `started` event per new thread id — every `exited` event before
any `started` event — and afterwards `known_threads` equals the current
thread-id set. -/
theorem C10_update_threads_deltas (s : Ev.Session)
    (h1 : s.known_threads.Nodup)
    (h2 : (s.process.threads.map (fun t => t.thread_id)).Nodup) :
    update_threads_conclusion s := by
  unfold update_threads_conclusion
  refine ⟨?_, List.Nodup.filter _ h1, List.Nodup.filter _ h2, ?_⟩
  · show (Ev.update_threads s).out = _
    simp [Ev.update_threads, foldl_emit_out, List.append_assoc]
  · intro t
    show t ∈ (Ev.update_threads s).known_threads ↔ _
    simp [Ev.update_threads]

/-- Witness for C10 at the concrete thread-delta state
(known = {1,2}, current = {2,3}). -/
theorem C10_witness :
    delta_state.known_threads.Nodup ∧
    (delta_state.process.threads.map (fun t => t.thread_id)).Nodup ∧
    update_threads_conclusion delta_state :=
  ⟨by decide, by decide,
   C10_update_threads_deltas delta_state (by decide) (by decide)⟩

/-!
Helper lemmas for the breakpoint model.
-/

namespace Adapter

namespace Bp

theorem breakpoint_delete_engine_bps (t : Target) (id : BreakpointID) :
    (breakpoint_delete t id).engine_bps = alerase t.engine_bps id := rfl

theorem breakpoint_delete_next (t : Target) (id : BreakpointID) :
    (breakpoint_delete t id).next_bp_id = t.next_bp_id := rfl

theorem breakpoint_delete_resolve_location (t : Target) (id : BreakpointID) :
    (breakpoint_delete t id).resolve_location = t.resolve_location := rfl

theorem alookup_map_update {β : Type} (m : List (Nat × β)) (id : Nat) (f : β → β)
    (id' : Nat) :
    alookup (m.map (fun p => if p.1 = id then (p.1, f p.2) else p)) id' =
      (alookup m id').map (fun b => if id' = id then f b else b) := by
  induction m with
  | nil => rfl
  | cons p rest ih =>
    obtain ⟨a, b⟩ := p
    by_cases hai : a = id
    · subst hai
      by_cases ha' : a = id'
      · subst ha'
        simp [alookup_cons]
      · simp [alookup_cons, ha', ih]
    · by_cases ha' : a = id'
      · subst ha'
        simp [alookup_cons, hai, fun h : a = id => hai h]
      · simp [alookup_cons, hai, ha', ih]

theorem update_bp_engine_bps (t : Target) (id : BreakpointID)
    (f : EngineBreakpoint → EngineBreakpoint) :
    (update_bp t id f).engine_bps =
      t.engine_bps.map (fun p => if p.1 = id then (p.1, f p.2) else p) := rfl

theorem alookup_update_bp (t : Target) (id : BreakpointID)
    (f : EngineBreakpoint → EngineBreakpoint) (id' : BreakpointID) :
    alookup (update_bp t id f).engine_bps id' =
      (alookup t.engine_bps id').map (fun b => if id' = id then f b else b) := by
  rw [update_bp_engine_bps, alookup_map_update]

theorem alookup_update_bp_isSome (t : Target) (id : BreakpointID)
    (f : EngineBreakpoint → EngineBreakpoint) (id' : BreakpointID) :
    (alookup (update_bp t id f).engine_bps id').isSome =
      (alookup t.engine_bps id').isSome := by
  rw [alookup_update_bp]
  cases alookup t.engine_bps id' <;> rfl

theorem update_bp_preserves (t : Target) (id : BreakpointID)
    (f : EngineBreakpoint → EngineBreakpoint) (id' : BreakpointID)
    (bp : EngineBreakpoint)
    (hf : ∀ b : EngineBreakpoint, (f b).spec = b.spec ∧ (f b).locations = b.locations)
    (h : alookup t.engine_bps id' = some bp) :
    ∃ bp', alookup (update_bp t id f).engine_bps id' = some bp' ∧
      bp'.spec = bp.spec ∧ bp'.locations = bp.locations := by
  refine ⟨if id' = id then f bp else bp, ?_, ?_, ?_⟩
  · rw [alookup_update_bp, h]
    rfl
  · by_cases hid : id' = id <;> simp [hid, (hf bp).1]
  · by_cases hid : id' = id <;> simp [hid, (hf bp).2]

theorem update_bp_next (t : Target) (id : BreakpointID)
    (f : EngineBreakpoint → EngineBreakpoint) :
    (update_bp t id f).next_bp_id = t.next_bp_id := rfl

theorem update_bp_resolve_location (t : Target) (id : BreakpointID)
    (f : EngineBreakpoint → EngineBreakpoint) :
    (update_bp t id f).resolve_location = t.resolve_location := rfl

theorem init_bp_actions_next (t : Target) (id : BreakpointID) (info : BreakpointInfo) :
    (init_bp_actions t id info).next_bp_id = t.next_bp_id := by
  cases hc : info.condition with
  | none =>
    simp only [init_bp_actions, hc]
    rfl
  | some condition =>
    cases hty : (get_expression_type condition).2 <;>
      simp only [init_bp_actions, hc, hty] <;> rfl

theorem init_bp_actions_resolve_location (t : Target) (id : BreakpointID)
    (info : BreakpointInfo) :
    (init_bp_actions t id info).resolve_location = t.resolve_location := by
  cases hc : info.condition with
  | none =>
    simp only [init_bp_actions, hc]
    rfl
  | some condition =>
    cases hty : (get_expression_type condition).2 <;>
      simp only [init_bp_actions, hc, hty] <;> rfl

theorem init_bp_actions_isSome (t : Target) (id : BreakpointID) (info : BreakpointInfo)
    (id' : BreakpointID) :
    (alookup (init_bp_actions t id info).engine_bps id').isSome =
      (alookup t.engine_bps id').isSome := by
  cases hc : info.condition with
  | none =>
    simp only [init_bp_actions, hc]
    apply alookup_update_bp_isSome
  | some condition =>
    cases hty : (get_expression_type condition).2 <;>
      simp only [init_bp_actions, hc, hty] <;>
      apply alookup_update_bp_isSome

theorem init_bp_actions_spec (t : Target) (id : BreakpointID) (info : BreakpointInfo)
    (id' : BreakpointID) (bp : EngineBreakpoint)
    (h : alookup t.engine_bps id' = some bp) :
    ∃ bp', alookup (init_bp_actions t id info).engine_bps id' = some bp' ∧
      bp'.spec = bp.spec ∧ bp'.locations = bp.locations := by
  cases hc : info.condition with
  | none =>
    simp only [init_bp_actions, hc]
    exact update_bp_preserves _ _ _ _ _ (fun b => ⟨rfl, rfl⟩) h
  | some condition =>
    cases hty : (get_expression_type condition).2 <;>
      simp only [init_bp_actions, hc, hty] <;>
      exact update_bp_preserves _ _ _ _ _ (fun b => ⟨rfl, rfl⟩) h

theorem init_bp_actions_none (t : Target) (id : BreakpointID) (info : BreakpointInfo)
    (id' : BreakpointID) (h : alookup t.engine_bps id' = none) :
    alookup (init_bp_actions t id info).engine_bps id' = none := by
  have := init_bp_actions_isSome t id info id'
  rw [h] at this
  cases hh : alookup (init_bp_actions t id info).engine_bps id' with
  | none => rfl
  | some bp =>
    rw [hh] at this
    simp at this

theorem create_by_location_next (t : Target) (n : String) (l : Nat) :
    (breakpoint_create_by_location t n l).1.next_bp_id = t.next_bp_id + 1 := rfl

theorem create_by_location_id (t : Target) (n : String) (l : Nat) :
    (breakpoint_create_by_location t n l).2.1 = t.next_bp_id := rfl

theorem create_by_location_locs (t : Target) (n : String) (l : Nat) :
    (breakpoint_create_by_location t n l).2.2 = t.resolve_location n l := rfl

theorem create_by_location_resolve (t : Target) (n : String) (l : Nat) :
    (breakpoint_create_by_location t n l).1.resolve_location = t.resolve_location := rfl

theorem alookup_create_by_location_old (t : Target) (n : String) (l : Nat)
    {id' : BreakpointID} (h : (alookup t.engine_bps id').isSome) :
    alookup (breakpoint_create_by_location t n l).1.engine_bps id' =
      alookup t.engine_bps id' := by
  cases heq : alookup t.engine_bps id' with
  | none => rw [heq] at h; simp at h
  | some bp => exact alookup_append_left _ heq

theorem alookup_create_by_location_self (t : Target) (n : String) (l : Nat)
    (h : alookup t.engine_bps t.next_bp_id = none) :
    alookup (breakpoint_create_by_location t n l).1.engine_bps t.next_bp_id =
      some ⟨BpSpec.ByLocation n l, t.resolve_location n l, none, none⟩ := by
  show alookup (t.engine_bps ++ [(t.next_bp_id, _)]) t.next_bp_id = _
  rw [alookup_append_right _ h, alookup_cons]
  simp

theorem alookup_create_by_location_none (t : Target) (n : String) (l : Nat)
    {id' : BreakpointID} (hne : ¬ id' = t.next_bp_id)
    (h : alookup t.engine_bps id' = none) :
    alookup (breakpoint_create_by_location t n l).1.engine_bps id' = none := by
  show alookup (t.engine_bps ++ [(t.next_bp_id, _)]) id' = none
  rw [alookup_append_right _ h, alookup_cons,
    if_neg (fun hh : t.next_bp_id = id' => hne hh.symm)]
  rfl

theorem alookup_create_by_location_rev (t : Target) (n : String) (l : Nat)
    (id' : BreakpointID)
    (h : (alookup (breakpoint_create_by_location t n l).1.engine_bps id').isSome) :
    (alookup t.engine_bps id').isSome ∨ id' = t.next_bp_id := by
  by_cases hold : (alookup t.engine_bps id').isSome
  · exact Or.inl hold
  · right
    rw [Option.not_isSome_iff_eq_none] at hold
    have h2 : alookup (breakpoint_create_by_location t n l).1.engine_bps id' =
        alookup [(t.next_bp_id,
          (⟨BpSpec.ByLocation n l, t.resolve_location n l, none, none⟩ : EngineBreakpoint))] id' := by
      show alookup (t.engine_bps ++ _) id' = _
      rw [alookup_append_right _ hold]
    rw [h2, alookup_cons] at h
    by_cases hid : t.next_bp_id = id'
    · exact hid.symm
    · rw [if_neg hid] at h
      simp [alookup] at h

theorem filter_locations_eq (t : Target) (bp_id : BreakpointID) (locs : List BpLocation)
    (bid : BreakpointID) (fp : String) (r : Option Nat) (vl : List BreakpointID)
    (c lm : Option String) (ic : Nat) :
    filter_locations t bp_id locs ⟨bid, BreakpointKind.Source fp r vl, c, lm, ic⟩ =
      (t, ⟨bid, BreakpointKind.Source fp (resolved_fold r locs) vl, c, lm, ic⟩) := by
  induction locs generalizing r with
  | nil => rfl
  | cons loc rest ih =>
    cases hle : loc.line_entry with
    | some line =>
      have h1 : filter_locations t bp_id (loc :: rest)
          ⟨bid, BreakpointKind.Source fp r vl, c, lm, ic⟩ =
          filter_locations t bp_id rest
            ⟨bid, BreakpointKind.Source fp (some line) vl, c, lm, ic⟩ := by
        simp [filter_locations, is_valid_source_bp_location, hle]
      have h2 : resolved_fold r (loc :: rest) = resolved_fold (some line) rest := by
        simp [resolved_fold, hle]
      rw [h1, h2, ih]
    | none =>
      have h1 : filter_locations t bp_id (loc :: rest)
          ⟨bid, BreakpointKind.Source fp r vl, c, lm, ic⟩ =
          filter_locations t bp_id rest
            ⟨bid, BreakpointKind.Source fp r vl, c, lm, ic⟩ := by
        simp [filter_locations, is_valid_source_bp_location, hle]
      have h2 : resolved_fold r (loc :: rest) = resolved_fold r rest := by
        simp [resolved_fold, hle]
      rw [h1, h2, ih]

theorem step_existing_map (s : Session) (existing : List (Int × BreakpointID))
    (req : SourceBreakpoint) (fp : String) {bp_id : BreakpointID}
    (h : alookup existing req.line = some bp_id) :
    (set_source_bp_step s existing req fp).2.1 = existing := by
  simp [set_source_bp_step, h]

theorem step_existing_resp (s : Session) (existing : List (Int × BreakpointID))
    (req : SourceBreakpoint) (fp : String) {bp_id : BreakpointID}
    (h : alookup existing req.line = some bp_id) :
    (set_source_bp_step s existing req fp).2.2 =
      { id := some (Int.ofNat bp_id), verified := true, line := none, source := none } := by
  simp [set_source_bp_step, h]

theorem step_existing_next (s : Session) (existing : List (Int × BreakpointID))
    (req : SourceBreakpoint) (fp : String) {bp_id : BreakpointID}
    (h : alookup existing req.line = some bp_id) :
    (set_source_bp_step s existing req fp).1.target.next_bp_id = s.target.next_bp_id := by
  simp [set_source_bp_step, h, init_bp_actions_next]

theorem step_existing_resolve (s : Session) (existing : List (Int × BreakpointID))
    (req : SourceBreakpoint) (fp : String) {bp_id : BreakpointID}
    (h : alookup existing req.line = some bp_id) :
    (set_source_bp_step s existing req fp).1.target.resolve_location =
      s.target.resolve_location := by
  simp [set_source_bp_step, h, init_bp_actions_resolve_location]

theorem step_existing_engine_isSome (s : Session) (existing : List (Int × BreakpointID))
    (req : SourceBreakpoint) (fp : String) {bp_id : BreakpointID}
    (h : alookup existing req.line = some bp_id) (id' : BreakpointID) :
    (alookup (set_source_bp_step s existing req fp).1.target.engine_bps id').isSome =
      (alookup s.target.engine_bps id').isSome := by
  simp [set_source_bp_step, h, init_bp_actions_isSome]

theorem step_existing_engine_spec (s : Session) (existing : List (Int × BreakpointID))
    (req : SourceBreakpoint) (fp : String) {bp_id : BreakpointID}
    (h : alookup existing req.line = some bp_id) (id' : BreakpointID)
    (bp : EngineBreakpoint) (hb : alookup s.target.engine_bps id' = some bp) :
    ∃ bp', alookup (set_source_bp_step s existing req fp).1.target.engine_bps id' =
      some bp' ∧ bp'.spec = bp.spec ∧ bp'.locations = bp.locations := by
  simp only [set_source_bp_step, h]
  exact init_bp_actions_spec _ _ _ _ _ hb

theorem step_existing_reg_self (s : Session) (existing : List (Int × BreakpointID))
    (req : SourceBreakpoint) (fp : String) {bp_id : BreakpointID}
    (h : alookup existing req.line = some bp_id) :
    (alookup (set_source_bp_step s existing req fp).1.breakpoints bp_id).isSome := by
  simp [set_source_bp_step, h, alookup_alinsert_self]

theorem step_existing_reg_ne (s : Session) (existing : List (Int × BreakpointID))
    (req : SourceBreakpoint) (fp : String) {bp_id : BreakpointID}
    (h : alookup existing req.line = some bp_id) (id' : BreakpointID)
    (hne : ¬ bp_id = id') :
    alookup (set_source_bp_step s existing req fp).1.breakpoints id' =
      alookup s.breakpoints id' := by
  simp only [set_source_bp_step, h]
  rw [alookup_alinsert_ne _ _ hne]

theorem step_existing_reg_rev (s : Session) (existing : List (Int × BreakpointID))
    (req : SourceBreakpoint) (fp : String) {bp_id : BreakpointID}
    (h : alookup existing req.line = some bp_id) (id' : BreakpointID)
    (hsome : (alookup (set_source_bp_step s existing req fp).1.breakpoints id').isSome) :
    (alookup s.breakpoints id').isSome ∨ id' = bp_id := by
  by_cases hid : id' = bp_id
  · exact Or.inr hid
  · left
    rw [step_existing_reg_ne s existing req fp h id' (fun hh => hid hh.symm)] at hsome
    exact hsome

theorem step_existing_sb (s : Session) (existing : List (Int × BreakpointID))
    (req : SourceBreakpoint) (fp : String) {bp_id : BreakpointID}
    (h : alookup existing req.line = some bp_id) :
    (set_source_bp_step s existing req fp).1.source_breakpoints = s.source_breakpoints := by
  simp [set_source_bp_step, h]

theorem step_existing_fn (s : Session) (existing : List (Int × BreakpointID))
    (req : SourceBreakpoint) (fp : String) {bp_id : BreakpointID}
    (h : alookup existing req.line = some bp_id) :
    (set_source_bp_step s existing req fp).1.fn_breakpoints = s.fn_breakpoints := by
  simp [set_source_bp_step, h]

theorem step_new_map (s : Session) (existing : List (Int × BreakpointID))
    (req : SourceBreakpoint) (fp : String)
    (h : alookup existing req.line = none) :
    (set_source_bp_step s existing req fp).2.1 =
      alinsert existing req.line s.target.next_bp_id := by
  simp [set_source_bp_step, h, create_by_location_id]

theorem step_new_resp_some (s : Session) (existing : List (Int × BreakpointID))
    (req : SourceBreakpoint) (fp : String) (ln : Nat)
    (h : alookup existing req.line = none)
    (hr : resolved_line_of_locations
      (s.target.resolve_location (path_file_name fp) (i64_as_u32 req.line)) = some ln) :
    (set_source_bp_step s existing req fp).2.2 =
      { id := some (Int.ofNat s.target.next_bp_id), verified := true,
        line := some (Int.ofNat ln),
        source := some { name := some (path_file_name fp), path := some fp,
                         adapter_data := some s.target.next_bp_id } } := by
  have hr' : resolved_fold none
      (s.target.resolve_location (path_file_name fp) (i64_as_u32 req.line)) = some ln := hr
  simp [set_source_bp_step, h, create_by_location_id, create_by_location_locs,
    filter_locations_eq, hr']

theorem step_new_resp_none (s : Session) (existing : List (Int × BreakpointID))
    (req : SourceBreakpoint) (fp : String)
    (h : alookup existing req.line = none)
    (hr : resolved_line_of_locations
      (s.target.resolve_location (path_file_name fp) (i64_as_u32 req.line)) = none) :
    (set_source_bp_step s existing req fp).2.2 =
      { id := some (Int.ofNat s.target.next_bp_id), verified := false,
        line := none, source := none } := by
  have hr' : resolved_fold none
      (s.target.resolve_location (path_file_name fp) (i64_as_u32 req.line)) = none := hr
  simp [set_source_bp_step, h, create_by_location_id, create_by_location_locs,
    filter_locations_eq, hr']

theorem step_new_next (s : Session) (existing : List (Int × BreakpointID))
    (req : SourceBreakpoint) (fp : String)
    (h : alookup existing req.line = none) :
    (set_source_bp_step s existing req fp).1.target.next_bp_id =
      s.target.next_bp_id + 1 := by
  simp [set_source_bp_step, h, create_by_location_id, create_by_location_locs,
    filter_locations_eq, init_bp_actions_next, create_by_location_next]

theorem step_new_resolve (s : Session) (existing : List (Int × BreakpointID))
    (req : SourceBreakpoint) (fp : String)
    (h : alookup existing req.line = none) :
    (set_source_bp_step s existing req fp).1.target.resolve_location =
      s.target.resolve_location := by
  simp [set_source_bp_step, h, create_by_location_id, create_by_location_locs,
    filter_locations_eq, init_bp_actions_resolve_location, create_by_location_resolve]

theorem step_new_engine_old (s : Session) (existing : List (Int × BreakpointID))
    (req : SourceBreakpoint) (fp : String)
    (h : alookup existing req.line = none) (id' : BreakpointID)
    (hold : (alookup s.target.engine_bps id').isSome) :
    (alookup (set_source_bp_step s existing req fp).1.target.engine_bps id').isSome := by
  simp only [set_source_bp_step, h, create_by_location_id, create_by_location_locs,
    filter_locations_eq]
  rw [init_bp_actions_isSome, alookup_create_by_location_old _ _ _ hold]
  exact hold

theorem step_new_engine_spec (s : Session) (existing : List (Int × BreakpointID))
    (req : SourceBreakpoint) (fp : String)
    (h : alookup existing req.line = none) (id' : BreakpointID)
    (bp : EngineBreakpoint) (hb : alookup s.target.engine_bps id' = some bp) :
    ∃ bp', alookup (set_source_bp_step s existing req fp).1.target.engine_bps id' =
      some bp' ∧ bp'.spec = bp.spec ∧ bp'.locations = bp.locations := by
  simp only [set_source_bp_step, h, create_by_location_id, create_by_location_locs,
    filter_locations_eq]
  have h1 : alookup (breakpoint_create_by_location s.target (path_file_name fp)
      (i64_as_u32 req.line)).1.engine_bps id' = some bp := by
    rw [alookup_create_by_location_old _ _ _ (by simp [hb])]
    exact hb
  exact init_bp_actions_spec _ _ _ _ _ h1

theorem step_new_engine_self (s : Session) (existing : List (Int × BreakpointID))
    (req : SourceBreakpoint) (fp : String)
    (h : alookup existing req.line = none)
    (hfresh : alookup s.target.engine_bps s.target.next_bp_id = none) :
    ∃ bp', alookup (set_source_bp_step s existing req fp).1.target.engine_bps
        s.target.next_bp_id = some bp' ∧
      bp'.spec = BpSpec.ByLocation (path_file_name fp) (i64_as_u32 req.line) := by
  simp only [set_source_bp_step, h, create_by_location_id, create_by_location_locs,
    filter_locations_eq]
  have h1 := alookup_create_by_location_self s.target (path_file_name fp)
    (i64_as_u32 req.line) hfresh
  obtain ⟨bp', h2, h3, h4⟩ := init_bp_actions_spec
    (breakpoint_create_by_location s.target (path_file_name fp) (i64_as_u32 req.line)).1
    s.target.next_bp_id _ s.target.next_bp_id _ h1
  exact ⟨bp', h2, by rw [h3]⟩

theorem step_new_engine_none (s : Session) (existing : List (Int × BreakpointID))
    (req : SourceBreakpoint) (fp : String)
    (h : alookup existing req.line = none) (id' : BreakpointID)
    (hne : ¬ id' = s.target.next_bp_id)
    (hnone : alookup s.target.engine_bps id' = none) :
    alookup (set_source_bp_step s existing req fp).1.target.engine_bps id' = none := by
  simp only [set_source_bp_step, h, create_by_location_id, create_by_location_locs,
    filter_locations_eq]
  exact init_bp_actions_none _ _ _ _
    (alookup_create_by_location_none s.target _ _ hne hnone)

theorem step_new_engine_rev (s : Session) (existing : List (Int × BreakpointID))
    (req : SourceBreakpoint) (fp : String)
    (h : alookup existing req.line = none) (id' : BreakpointID)
    (hsome : (alookup (set_source_bp_step s existing req fp).1.target.engine_bps
      id').isSome) :
    (alookup s.target.engine_bps id').isSome ∨ id' = s.target.next_bp_id := by
  simp only [set_source_bp_step, h, create_by_location_id, create_by_location_locs,
    filter_locations_eq] at hsome
  rw [init_bp_actions_isSome] at hsome
  exact alookup_create_by_location_rev _ _ _ _ hsome

theorem step_new_reg_self (s : Session) (existing : List (Int × BreakpointID))
    (req : SourceBreakpoint) (fp : String)
    (h : alookup existing req.line = none) :
    (alookup (set_source_bp_step s existing req fp).1.breakpoints
      s.target.next_bp_id).isSome := by
  simp [set_source_bp_step, h, create_by_location_id, create_by_location_locs,
    filter_locations_eq, alookup_alinsert_self]

theorem step_new_reg_ne (s : Session) (existing : List (Int × BreakpointID))
    (req : SourceBreakpoint) (fp : String)
    (h : alookup existing req.line = none) (id' : BreakpointID)
    (hne : ¬ s.target.next_bp_id = id') :
    alookup (set_source_bp_step s existing req fp).1.breakpoints id' =
      alookup s.breakpoints id' := by
  simp only [set_source_bp_step, h, create_by_location_id, create_by_location_locs,
    filter_locations_eq]
  rw [alookup_alinsert_ne _ _ hne, alookup_alinsert_new_ne _ _ hne]

theorem step_new_reg_rev (s : Session) (existing : List (Int × BreakpointID))
    (req : SourceBreakpoint) (fp : String)
    (h : alookup existing req.line = none) (id' : BreakpointID)
    (hsome : (alookup (set_source_bp_step s existing req fp).1.breakpoints id').isSome) :
    (alookup s.breakpoints id').isSome ∨ id' = s.target.next_bp_id := by
  by_cases hid : id' = s.target.next_bp_id
  · exact Or.inr hid
  · left
    rw [step_new_reg_ne s existing req fp h id' (fun hh => hid hh.symm)] at hsome
    exact hsome

theorem step_new_sb (s : Session) (existing : List (Int × BreakpointID))
    (req : SourceBreakpoint) (fp : String)
    (h : alookup existing req.line = none) :
    (set_source_bp_step s existing req fp).1.source_breakpoints = s.source_breakpoints := by
  simp [set_source_bp_step, h, create_by_location_id, create_by_location_locs,
    filter_locations_eq]

theorem step_new_fn (s : Session) (existing : List (Int × BreakpointID))
    (req : SourceBreakpoint) (fp : String)
    (h : alookup existing req.line = none) :
    (set_source_bp_step s existing req fp).1.fn_breakpoints = s.fn_breakpoints := by
  simp [set_source_bp_step, h, create_by_location_id, create_by_location_locs,
    filter_locations_eq]

theorem loop_resolve (fp : String) (reqs : List SourceBreakpoint) :
    ∀ (s : Session) (existing : List (Int × BreakpointID)),
      (set_source_breakpoints s existing reqs fp).1.target.resolve_location =
        s.target.resolve_location := by
  induction reqs with
  | nil => intro s existing; rfl
  | cons req rest ih =>
    intro s existing
    simp only [set_source_breakpoints]
    cases hl : alookup existing req.line with
    | some bp_id => rw [ih, step_existing_resolve s existing req fp hl]
    | none => rw [ih, step_new_resolve s existing req fp hl]

theorem loop_next_mono (fp : String) (reqs : List SourceBreakpoint) :
    ∀ (s : Session) (existing : List (Int × BreakpointID)),
      s.target.next_bp_id ≤
        (set_source_breakpoints s existing reqs fp).1.target.next_bp_id := by
  induction reqs with
  | nil => intro s existing; exact Nat.le_refl _
  | cons req rest ih =>
    intro s existing
    simp only [set_source_breakpoints]
    refine Nat.le_trans ?_ (ih _ _)
    cases hl : alookup existing req.line with
    | some bp_id => rw [step_existing_next s existing req fp hl]
    | none =>
      rw [step_new_next s existing req fp hl]
      exact Nat.le_succ _

theorem loop_sb (fp : String) (reqs : List SourceBreakpoint) :
    ∀ (s : Session) (existing : List (Int × BreakpointID)),
      (set_source_breakpoints s existing reqs fp).1.source_breakpoints =
        s.source_breakpoints := by
  induction reqs with
  | nil => intro s existing; rfl
  | cons req rest ih =>
    intro s existing
    simp only [set_source_breakpoints]
    cases hl : alookup existing req.line with
    | some bp_id => rw [ih, step_existing_sb s existing req fp hl]
    | none => rw [ih, step_new_sb s existing req fp hl]

theorem loop_fn (fp : String) (reqs : List SourceBreakpoint) :
    ∀ (s : Session) (existing : List (Int × BreakpointID)),
      (set_source_breakpoints s existing reqs fp).1.fn_breakpoints =
        s.fn_breakpoints := by
  induction reqs with
  | nil => intro s existing; rfl
  | cons req rest ih =>
    intro s existing
    simp only [set_source_breakpoints]
    cases hl : alookup existing req.line with
    | some bp_id => rw [ih, step_existing_fn s existing req fp hl]
    | none => rw [ih, step_new_fn s existing req fp hl]

theorem loop_engine_mono (fp : String) (reqs : List SourceBreakpoint) :
    ∀ (s : Session) (existing : List (Int × BreakpointID)) (id' : BreakpointID),
      (alookup s.target.engine_bps id').isSome →
      (alookup (set_source_breakpoints s existing reqs fp).1.target.engine_bps
        id').isSome := by
  induction reqs with
  | nil => intro s existing id' h; exact h
  | cons req rest ih =>
    intro s existing id' h
    simp only [set_source_breakpoints]
    refine ih _ _ _ ?_
    cases hl : alookup existing req.line with
    | some bp_id =>
      rw [step_existing_engine_isSome s existing req fp hl]
      exact h
    | none => exact step_new_engine_old s existing req fp hl id' h

theorem loop_engine_spec (fp : String) (reqs : List SourceBreakpoint) :
    ∀ (s : Session) (existing : List (Int × BreakpointID)) (id' : BreakpointID)
      (bp : EngineBreakpoint),
      alookup s.target.engine_bps id' = some bp →
      ∃ bp', alookup (set_source_breakpoints s existing reqs fp).1.target.engine_bps id' =
        some bp' ∧ bp'.spec = bp.spec ∧ bp'.locations = bp.locations := by
  induction reqs with
  | nil => intro s existing id' bp h; exact ⟨bp, h, rfl, rfl⟩
  | cons req rest ih =>
    intro s existing id' bp h
    simp only [set_source_breakpoints]
    cases hl : alookup existing req.line with
    | some bp_id =>
      obtain ⟨bp1, h1, h2, h3⟩ := step_existing_engine_spec s existing req fp hl id' bp h
      obtain ⟨bp2, h4, h5, h6⟩ := ih _ _ _ _ h1
      exact ⟨bp2, h4, h5.trans h2, h6.trans h3⟩
    | none =>
      obtain ⟨bp1, h1, h2, h3⟩ := step_new_engine_spec s existing req fp hl id' bp h
      obtain ⟨bp2, h4, h5, h6⟩ := ih _ _ _ _ h1
      exact ⟨bp2, h4, h5.trans h2, h6.trans h3⟩

theorem loop_engine_rev (fp : String) (reqs : List SourceBreakpoint) :
    ∀ (s : Session) (existing : List (Int × BreakpointID)) (id' : BreakpointID),
      (alookup (set_source_breakpoints s existing reqs fp).1.target.engine_bps
        id').isSome →
      (alookup s.target.engine_bps id').isSome ∨ s.target.next_bp_id ≤ id' := by
  induction reqs with
  | nil => intro s existing id' h; exact Or.inl h
  | cons req rest ih =>
    intro s existing id' h
    simp only [set_source_breakpoints] at h
    rcases ih _ _ _ h with h1 | h1
    · cases hl : alookup existing req.line with
      | some bp_id =>
        rw [step_existing_engine_isSome s existing req fp hl] at h1
        exact Or.inl h1
      | none =>
        rcases step_new_engine_rev s existing req fp hl id' h1 with h2 | h2
        · exact Or.inl h2
        · exact Or.inr (Nat.le_of_eq h2.symm)
    · right
      refine Nat.le_trans ?_ h1
      cases hl : alookup existing req.line with
      | some bp_id => rw [step_existing_next s existing req fp hl]
      | none =>
        rw [step_new_next s existing req fp hl]
        exact Nat.le_succ _

theorem loop_reg_mono (fp : String) (reqs : List SourceBreakpoint) :
    ∀ (s : Session) (existing : List (Int × BreakpointID)) (id' : BreakpointID),
      (alookup s.breakpoints id').isSome →
      (alookup (set_source_breakpoints s existing reqs fp).1.breakpoints id').isSome := by
  induction reqs with
  | nil => intro s existing id' h; exact h
  | cons req rest ih =>
    intro s existing id' h
    simp only [set_source_breakpoints]
    refine ih _ _ _ ?_
    cases hl : alookup existing req.line with
    | some bp_id =>
      by_cases hid : bp_id = id'
      · subst hid
        exact step_existing_reg_self s existing req fp hl
      · rw [step_existing_reg_ne s existing req fp hl id' hid]
        exact h
    | none =>
      by_cases hid : s.target.next_bp_id = id'
      · subst hid
        exact step_new_reg_self s existing req fp hl
      · rw [step_new_reg_ne s existing req fp hl id' hid]
        exact h

theorem loop_map_stable (fp : String) (reqs : List SourceBreakpoint) :
    ∀ (s : Session) (existing : List (Int × BreakpointID)) (l : Int)
      (id : BreakpointID),
      alookup existing l = some id →
      alookup (set_source_breakpoints s existing reqs fp).2.1 l = some id := by
  induction reqs with
  | nil => intro s existing l id h; exact h
  | cons req rest ih =>
    intro s existing l id h
    simp only [set_source_breakpoints]
    refine ih _ _ _ _ ?_
    cases hl : alookup existing req.line with
    | some bp_id =>
      rw [step_existing_map s existing req fp hl]
      exact h
    | none =>
      rw [step_new_map s existing req fp hl]
      have hne : ¬ req.line = l := by
        intro hh
        rw [hh, h] at hl
        exact Option.noConfusion hl
      rw [alookup_alinsert_ne _ _ hne]
      exact h

theorem loop_map_iff (fp : String) (reqs : List SourceBreakpoint) :
    ∀ (s : Session) (existing : List (Int × BreakpointID)) (l : Int),
      (alookup (set_source_breakpoints s existing reqs fp).2.1 l).isSome ↔
        ((alookup existing l).isSome ∨ l ∈ reqs.map (fun r => r.line)) := by
  induction reqs with
  | nil =>
    intro s existing l
    simp [set_source_breakpoints]
  | cons req rest ih =>
    intro s existing l
    simp only [set_source_breakpoints]
    rw [ih]
    cases hl : alookup existing req.line with
    | some bp_id =>
      rw [step_existing_map s existing req fp hl]
      constructor
      · rintro (h | h)
        · exact Or.inl h
        · exact Or.inr (by simp [h])
      · rintro (h | h)
        · exact Or.inl h
        · simp only [List.map_cons, List.mem_cons] at h
          rcases h with h | h
          · subst h
            rw [hl]
            exact Or.inl rfl
          · exact Or.inr h
    | none =>
      rw [step_new_map s existing req fp hl]
      constructor
      · rintro (h | h)
        · by_cases hll : req.line = l
          · exact Or.inr (by simp [hll.symm])
          · rw [alookup_alinsert_ne _ _ hll] at h
            exact Or.inl h
        · exact Or.inr (by simp [h])
      · rintro (h | h)
        · left
          exact alookup_alinsert_isSome_mono _ _ h
        · simp only [List.map_cons, List.mem_cons] at h
          rcases h with h | h
          · subst h
            left
            rw [alookup_alinsert_self]
            rfl
          · exact Or.inr h

theorem loop_resp_length (fp : String) (reqs : List SourceBreakpoint) :
    ∀ (s : Session) (existing : List (Int × BreakpointID)),
      (set_source_breakpoints s existing reqs fp).2.2.length = reqs.length := by
  induction reqs with
  | nil => intro s existing; rfl
  | cons req rest ih =>
    intro s existing
    simp only [set_source_breakpoints, List.length_cons]
    rw [ih]

theorem step_new_resp_id (s : Session) (existing : List (Int × BreakpointID))
    (req : SourceBreakpoint) (fp : String)
    (h : alookup existing req.line = none) :
    (set_source_bp_step s existing req fp).2.2.id =
      some (Int.ofNat s.target.next_bp_id) := by
  cases hr : resolved_line_of_locations
      (s.target.resolve_location (path_file_name fp) (i64_as_u32 req.line)) with
  | some ln => rw [step_new_resp_some s existing req fp ln h hr]
  | none => rw [step_new_resp_none s existing req fp h hr]

theorem loop_reg_rev (fp : String) (reqs : List SourceBreakpoint) :
    ∀ (s : Session) (existing : List (Int × BreakpointID)) (id' : BreakpointID),
      (alookup (set_source_breakpoints s existing reqs fp).1.breakpoints id').isSome →
      ((alookup s.breakpoints id').isSome ∨
       (∃ l, alookup existing l = some id') ∨
       s.target.next_bp_id ≤ id') := by
  induction reqs with
  | nil => intro s existing id' h; exact Or.inl h
  | cons req rest ih =>
    intro s existing id' h
    simp only [set_source_breakpoints] at h
    rcases ih _ _ _ h with h1 | h1 | h1
    · cases hl : alookup existing req.line with
      | some bp_id =>
        rcases step_existing_reg_rev s existing req fp hl id' h1 with h2 | h2
        · exact Or.inl h2
        · subst h2
          exact Or.inr (Or.inl ⟨req.line, hl⟩)
      | none =>
        rcases step_new_reg_rev s existing req fp hl id' h1 with h2 | h2
        · exact Or.inl h2
        · exact Or.inr (Or.inr (Nat.le_of_eq h2.symm))
    · obtain ⟨l, hll⟩ := h1
      cases hl : alookup existing req.line with
      | some bp_id =>
        rw [step_existing_map s existing req fp hl] at hll
        exact Or.inr (Or.inl ⟨l, hll⟩)
      | none =>
        rw [step_new_map s existing req fp hl] at hll
        by_cases hlr : req.line = l
        · rw [hlr, alookup_alinsert_self] at hll
          have : id' = s.target.next_bp_id := (Option.some.injEq _ _ ▸ hll).symm
          exact Or.inr (Or.inr (Nat.le_of_eq this.symm))
        · rw [alookup_alinsert_ne _ _ hlr] at hll
          exact Or.inr (Or.inl ⟨l, hll⟩)
    · right; right
      refine Nat.le_trans ?_ h1
      cases hl : alookup existing req.line with
      | some bp_id => rw [step_existing_next s existing req fp hl]
      | none =>
        rw [step_new_next s existing req fp hl]
        exact Nat.le_succ _

theorem loop_new_line (fp : String) (reqs : List SourceBreakpoint) :
    ∀ (s : Session) (existing : List (Int × BreakpointID)) (l : Int),
      (∀ id, s.target.next_bp_id ≤ id → alookup s.target.engine_bps id = none) →
      alookup existing l = none →
      l ∈ reqs.map (fun r => r.line) →
      ∃ id bp, alookup (set_source_breakpoints s existing reqs fp).2.1 l = some id ∧
        s.target.next_bp_id ≤ id ∧
        alookup s.target.engine_bps id = none ∧
        alookup (set_source_breakpoints s existing reqs fp).1.target.engine_bps id =
          some bp ∧
        bp.spec = BpSpec.ByLocation (path_file_name fp) (i64_as_u32 l) := by
  induction reqs with
  | nil => intro s existing l _ _ hmem; simp at hmem
  | cons req rest ih =>
    intro s existing l hf hnone hmem
    simp only [set_source_breakpoints]
    cases hl : alookup existing req.line with
    | some bp_id =>
      have hlne : ¬ l = req.line := by
        intro hh
        rw [← hh, hnone] at hl
        exact Option.noConfusion hl
      have hmem' : l ∈ rest.map (fun r => r.line) := by
        simp only [List.map_cons, List.mem_cons] at hmem
        rcases hmem with hh | hh
        · exact absurd hh hlne
        · exact hh
      have hf1 : ∀ id, (set_source_bp_step s existing req fp).1.target.next_bp_id ≤ id →
          alookup (set_source_bp_step s existing req fp).1.target.engine_bps id = none := by
        intro id hle
        rw [step_existing_next s existing req fp hl] at hle
        have h0 := hf id hle
        have h1 := step_existing_engine_isSome s existing req fp hl id
        rw [h0] at h1
        cases hq : alookup (set_source_bp_step s existing req fp).1.target.engine_bps id with
        | none => rfl
        | some bp => rw [hq] at h1; simp at h1
      have hnone1 : alookup (set_source_bp_step s existing req fp).2.1 l = none := by
        rw [step_existing_map s existing req fp hl]
        exact hnone
      obtain ⟨id, bp, hmap, hle, hnone2, hafter, hspec⟩ :=
        ih (set_source_bp_step s existing req fp).1
          (set_source_bp_step s existing req fp).2.1 l hf1 hnone1 hmem'
      refine ⟨id, bp, hmap, ?_, ?_, hafter, hspec⟩
      · rw [step_existing_next s existing req fp hl] at hle
        exact hle
      · have h1 := step_existing_engine_isSome s existing req fp hl id
        rw [hnone2] at h1
        cases hq : alookup s.target.engine_bps id with
        | none => rfl
        | some bp2 => rw [hq] at h1; simp at h1
    | none =>
      by_cases hlr : l = req.line
      · -- this entry creates the breakpoint for `l`
        subst hlr
        have hfresh : alookup s.target.engine_bps s.target.next_bp_id = none :=
          hf _ (Nat.le_refl _)
        obtain ⟨bp1, hself, hspec1⟩ := step_new_engine_self s existing req fp hl hfresh
        obtain ⟨bp2, hafter, hspec2, _⟩ :=
          loop_engine_spec fp rest (set_source_bp_step s existing req fp).1
            (set_source_bp_step s existing req fp).2.1 s.target.next_bp_id bp1 hself
        refine ⟨s.target.next_bp_id, bp2, ?_, Nat.le_refl _, hfresh, hafter,
          by rw [hspec2, hspec1]⟩
        refine loop_map_stable fp rest _ _ _ _ ?_
        rw [step_new_map s existing req fp hl, alookup_alinsert_self]
      · have hmem' : l ∈ rest.map (fun r => r.line) := by
          simp only [List.map_cons, List.mem_cons] at hmem
          rcases hmem with hh | hh
          · exact absurd hh hlr
          · exact hh
        have hf1 : ∀ id, (set_source_bp_step s existing req fp).1.target.next_bp_id ≤ id →
            alookup (set_source_bp_step s existing req fp).1.target.engine_bps id = none := by
          intro id hle
          rw [step_new_next s existing req fp hl] at hle
          have hne : ¬ id = s.target.next_bp_id := by
            intro hh
            rw [hh] at hle
            exact Nat.not_succ_le_self _ hle
          exact step_new_engine_none s existing req fp hl id hne
            (hf id (Nat.le_of_succ_le hle))
        have hnone1 : alookup (set_source_bp_step s existing req fp).2.1 l = none := by
          rw [step_new_map s existing req fp hl,
            alookup_alinsert_ne _ _ (fun hh : req.line = l => hlr hh.symm)]
          exact hnone
        obtain ⟨id, bp, hmap, hle, _, hafter, hspec⟩ :=
          ih (set_source_bp_step s existing req fp).1
            (set_source_bp_step s existing req fp).2.1 l hf1 hnone1 hmem'
        rw [step_new_next s existing req fp hl] at hle
        refine ⟨id, bp, hmap, Nat.le_of_succ_le hle, hf id (Nat.le_of_succ_le hle),
          hafter, hspec⟩

theorem loop_engine_new_rev (fp : String) (reqs : List SourceBreakpoint) :
    ∀ (s : Session) (existing : List (Int × BreakpointID)) (id : BreakpointID),
      (alookup (set_source_breakpoints s existing reqs fp).1.target.engine_bps
        id).isSome →
      alookup s.target.engine_bps id = none →
      ∃ l, l ∈ reqs.map (fun r => r.line) ∧ alookup existing l = none ∧
        alookup (set_source_breakpoints s existing reqs fp).2.1 l = some id := by
  induction reqs with
  | nil =>
    intro s existing id h hnone
    rw [show (set_source_breakpoints s existing [] fp).1 = s from rfl, hnone] at h
    simp at h
  | cons req rest ih =>
    intro s existing id h hnone
    simp only [set_source_breakpoints] at h ⊢
    cases hl : alookup existing req.line with
    | some bp_id =>
      have hnone1 : alookup (set_source_bp_step s existing req fp).1.target.engine_bps
          id = none := by
        have h1 := step_existing_engine_isSome s existing req fp hl id
        rw [hnone] at h1
        cases hq : alookup (set_source_bp_step s existing req fp).1.target.engine_bps id with
        | none => rfl
        | some bp => rw [hq] at h1; simp at h1
      obtain ⟨l, hmem, hn, hmap⟩ := ih _ _ _ h hnone1
      rw [step_existing_map s existing req fp hl] at hn
      exact ⟨l, by simp [hmem], hn, hmap⟩
    | none =>
      by_cases hid : id = s.target.next_bp_id
      · subst hid
        refine ⟨req.line, by simp, hl, ?_⟩
        refine loop_map_stable fp rest _ _ _ _ ?_
        rw [step_new_map s existing req fp hl, alookup_alinsert_self]
      · have hnone1 := step_new_engine_none s existing req fp hl id hid hnone
        obtain ⟨l, hmem, hn, hmap⟩ := ih _ _ _ h hnone1
        rw [step_new_map s existing req fp hl] at hn
        by_cases hlr : req.line = l
        · rw [hlr, alookup_alinsert_self] at hn
          exact Option.noConfusion hn
        · rw [alookup_alinsert_ne _ _ hlr] at hn
          exact ⟨l, by simp [hmem], hn, hmap⟩

theorem loop_resp_ids (fp : String) (reqs : List SourceBreakpoint) :
    ∀ (s : Session) (existing : List (Int × BreakpointID)) (i : Nat)
      (h1 : i < (set_source_breakpoints s existing reqs fp).2.2.length)
      (h2 : i < reqs.length),
      ((set_source_breakpoints s existing reqs fp).2.2.get ⟨i, h1⟩).id =
        (alookup (set_source_breakpoints s existing reqs fp).2.1
          (reqs.get ⟨i, h2⟩).line).map (fun id => Int.ofNat id) := by
  induction reqs with
  | nil => intro s existing i h1 h2; exact absurd h2 (Nat.not_lt_zero i)
  | cons req rest ih =>
    intro s existing i h1 h2
    cases i with
    | zero =>
      show ((set_source_bp_step s existing req fp).2.2).id =
        (alookup (set_source_breakpoints (set_source_bp_step s existing req fp).1
          (set_source_bp_step s existing req fp).2.1 rest fp).2.1 req.line).map
            (fun id => Int.ofNat id)
      cases hl : alookup existing req.line with
      | some bp_id =>
        rw [step_existing_resp s existing req fp hl]
        have hst : alookup (set_source_breakpoints (set_source_bp_step s existing req fp).1
            (set_source_bp_step s existing req fp).2.1 rest fp).2.1 req.line =
            some bp_id := by
          refine loop_map_stable fp rest _ _ _ _ ?_
          rw [step_existing_map s existing req fp hl]
          exact hl
        rw [hst]
        rfl
      | none =>
        rw [step_new_resp_id s existing req fp hl]
        have hst : alookup (set_source_breakpoints (set_source_bp_step s existing req fp).1
            (set_source_bp_step s existing req fp).2.1 rest fp).2.1 req.line =
            some s.target.next_bp_id := by
          refine loop_map_stable fp rest _ _ _ _ ?_
          rw [step_new_map s existing req fp hl, alookup_alinsert_self]
        rw [hst]
        rfl
    | succ j =>
      have h1' : j < (set_source_breakpoints (set_source_bp_step s existing req fp).1
          (set_source_bp_step s existing req fp).2.1 rest fp).2.2.length := by
        have := h1
        simp only [set_source_breakpoints, List.length_cons] at this
        exact Nat.lt_of_succ_lt_succ this
      have h2' : j < rest.length := Nat.lt_of_succ_lt_succ h2
      exact ih (set_source_bp_step s existing req fp).1
        (set_source_bp_step s existing req fp).2.1 j h1' h2'

theorem loop_reg_incl (fp : String) (reqs : List SourceBreakpoint) :
    ∀ (s : Session) (existing : List (Int × BreakpointID)),
      (∀ l id, alookup existing l = some id →
        l ∈ reqs.map (fun r => r.line) ∨ (alookup s.breakpoints id).isSome) →
      ∀ l id, alookup (set_source_breakpoints s existing reqs fp).2.1 l = some id →
        (alookup (set_source_breakpoints s existing reqs fp).1.breakpoints id).isSome := by
  induction reqs with
  | nil =>
    intro s existing hinv l id hbind
    rcases hinv l id hbind with hh | hh
    · simp at hh
    · exact hh
  | cons req rest ih =>
    intro s existing hinv l id hbind
    simp only [set_source_breakpoints] at hbind ⊢
    refine ih _ _ ?_ l id hbind
    intro l' id' hbind'
    cases hl : alookup existing req.line with
    | some bp_id =>
      rw [step_existing_map s existing req fp hl] at hbind'
      rcases hinv l' id' hbind' with hh | hh
      · simp only [List.map_cons, List.mem_cons] at hh
        rcases hh with hh | hh
        · subst hh
          right
          have : id' = bp_id := by
            rw [hbind'] at hl
            exact Option.some.inj hl
          subst this
          exact step_existing_reg_self s existing req fp hl
        · exact Or.inl hh
      · right
        by_cases hid : bp_id = id'
        · subst hid
          exact step_existing_reg_self s existing req fp hl
        · rw [step_existing_reg_ne s existing req fp hl id' hid]
          exact hh
    | none =>
      rw [step_new_map s existing req fp hl] at hbind'
      by_cases hlr : req.line = l'
      · right
        rw [hlr, alookup_alinsert_self] at hbind'
        have : id' = s.target.next_bp_id := (Option.some.injEq _ _ ▸ hbind').symm
        subst this
        exact step_new_reg_self s existing req fp hl
      · rw [alookup_alinsert_ne _ _ hlr] at hbind'
        rcases hinv l' id' hbind' with hh | hh
        · simp only [List.map_cons, List.mem_cons] at hh
          rcases hh with hh | hh
          · exact absurd hh.symm hlr
          · exact Or.inl hh
        · right
          by_cases hid : s.target.next_bp_id = id'
          · subst hid
            exact step_new_reg_self s existing req fp hl
          · rw [step_new_reg_ne s existing req fp hl id' hid]
            exact hh

theorem del_engine_none_pres (removed : List (Int × BreakpointID)) :
    ∀ (s : Session) (id : BreakpointID),
      alookup s.target.engine_bps id = none →
      alookup (delete_unrequested s removed).target.engine_bps id = none := by
  induction removed with
  | nil => intro s id h; exact h
  | cons p rest ih =>
    intro s id h
    refine ih _ _ ?_
    show alookup (alerase s.target.engine_bps p.2) id = none
    by_cases hid : id = p.2
    · rw [hid, alookup_alerase_self]
    · rw [alookup_alerase_ne _ hid]
      exact h

theorem del_reg_none_pres (removed : List (Int × BreakpointID)) :
    ∀ (s : Session) (id : BreakpointID),
      alookup s.breakpoints id = none →
      alookup (delete_unrequested s removed).breakpoints id = none := by
  induction removed with
  | nil => intro s id h; exact h
  | cons p rest ih =>
    intro s id h
    refine ih _ _ ?_
    show alookup (alerase s.breakpoints p.2) id = none
    by_cases hid : id = p.2
    · rw [hid, alookup_alerase_self]
    · rw [alookup_alerase_ne _ hid]
      exact h

theorem del_mem (removed : List (Int × BreakpointID)) :
    ∀ (s : Session) (id : BreakpointID), id ∈ removed.map Prod.snd →
      alookup (delete_unrequested s removed).target.engine_bps id = none ∧
      alookup (delete_unrequested s removed).breakpoints id = none := by
  induction removed with
  | nil => intro s id h; simp at h
  | cons p rest ih =>
    intro s id h
    simp only [List.map_cons, List.mem_cons] at h
    by_cases hid : id = p.2
    · constructor
      · refine del_engine_none_pres rest _ _ ?_
        show alookup (alerase s.target.engine_bps p.2) id = none
        rw [hid, alookup_alerase_self]
      · refine del_reg_none_pres rest _ _ ?_
        show alookup (alerase s.breakpoints p.2) id = none
        rw [hid, alookup_alerase_self]
    · rcases h with h | h
      · exact absurd h hid
      · exact ih _ _ h

theorem del_not_mem (removed : List (Int × BreakpointID)) :
    ∀ (s : Session) (id : BreakpointID), ¬ id ∈ removed.map Prod.snd →
      alookup (delete_unrequested s removed).target.engine_bps id =
        alookup s.target.engine_bps id ∧
      alookup (delete_unrequested s removed).breakpoints id =
        alookup s.breakpoints id := by
  induction removed with
  | nil => intro s id _; exact ⟨rfl, rfl⟩
  | cons p rest ih =>
    intro s id h
    simp only [List.map_cons, List.mem_cons, not_or] at h
    obtain ⟨h1, h2⟩ := h
    obtain ⟨ih1, ih2⟩ := ih
      { s with
          target := breakpoint_delete s.target p.2
          breakpoints := alerase s.breakpoints p.2 } id h2
    constructor
    · rw [show delete_unrequested s (p :: rest) = delete_unrequested
        { s with
            target := breakpoint_delete s.target p.2
            breakpoints := alerase s.breakpoints p.2 } rest from rfl, ih1]
      show alookup (alerase s.target.engine_bps p.2) id = _
      rw [alookup_alerase_ne _ h1]
    · rw [show delete_unrequested s (p :: rest) = delete_unrequested
        { s with
            target := breakpoint_delete s.target p.2
            breakpoints := alerase s.breakpoints p.2 } rest from rfl, ih2]
      show alookup (alerase s.breakpoints p.2) id = _
      rw [alookup_alerase_ne _ h1]

theorem del_next (removed : List (Int × BreakpointID)) :
    ∀ (s : Session),
      (delete_unrequested s removed).target.next_bp_id = s.target.next_bp_id := by
  induction removed with
  | nil => intro s; rfl
  | cons p rest ih => intro s; exact ih _

theorem del_resolve (removed : List (Int × BreakpointID)) :
    ∀ (s : Session),
      (delete_unrequested s removed).target.resolve_location =
        s.target.resolve_location := by
  induction removed with
  | nil => intro s; rfl
  | cons p rest ih => intro s; exact ih _

theorem del_sb (removed : List (Int × BreakpointID)) :
    ∀ (s : Session),
      (delete_unrequested s removed).source_breakpoints = s.source_breakpoints := by
  induction removed with
  | nil => intro s; rfl
  | cons p rest ih => intro s; exact ih _

theorem del_fn (removed : List (Int × BreakpointID)) :
    ∀ (s : Session),
      (delete_unrequested s removed).fn_breakpoints = s.fn_breakpoints := by
  induction removed with
  | nil => intro s; rfl
  | cons p rest ih => intro s; exact ih _

theorem del_reg_rev (removed : List (Int × BreakpointID)) :
    ∀ (s : Session) (id : BreakpointID),
      (alookup (delete_unrequested s removed).breakpoints id).isSome →
      (alookup s.breakpoints id).isSome := by
  intro s id h
  by_cases hmem : id ∈ removed.map Prod.snd
  · rw [(del_mem removed s id hmem).2] at h
    simp at h
  · rw [(del_not_mem removed s id hmem).2] at h
    exact h

theorem loop_resp_shape (fp : String) (reqs : List SourceBreakpoint) :
    ∀ (s : Session) (existing : List (Int × BreakpointID)) (i : Nat)
      (h1 : i < (set_source_breakpoints s existing reqs fp).2.2.length)
      (h2 : i < reqs.length),
      ((alookup (set_source_breakpoints s existing (reqs.take i) fp).2.1
          (reqs.get ⟨i, h2⟩).line).isSome →
        (((set_source_breakpoints s existing reqs fp).2.2.get ⟨i, h1⟩).verified = true ∧
         ((set_source_breakpoints s existing reqs fp).2.2.get ⟨i, h1⟩).line = none ∧
         ((set_source_breakpoints s existing reqs fp).2.2.get ⟨i, h1⟩).source = none ∧
         ∃ id, ((set_source_breakpoints s existing reqs fp).2.2.get ⟨i, h1⟩).id =
           some (Int.ofNat id))) ∧
      (¬ (alookup (set_source_breakpoints s existing (reqs.take i) fp).2.1
          (reqs.get ⟨i, h2⟩).line).isSome →
        (∃ id,
          ((set_source_breakpoints s existing reqs fp).2.2.get ⟨i, h1⟩).id =
            some (Int.ofNat id) ∧
          ((set_source_breakpoints s existing reqs fp).2.2.get ⟨i, h1⟩).verified =
            (resolved_line_of_locations (s.target.resolve_location (path_file_name fp)
              (i64_as_u32 (reqs.get ⟨i, h2⟩).line))).isSome ∧
          ((set_source_breakpoints s existing reqs fp).2.2.get ⟨i, h1⟩).line =
            (resolved_line_of_locations (s.target.resolve_location (path_file_name fp)
              (i64_as_u32 (reqs.get ⟨i, h2⟩).line))).map (fun l => Int.ofNat l) ∧
          ((set_source_breakpoints s existing reqs fp).2.2.get ⟨i, h1⟩).source =
            (resolved_line_of_locations (s.target.resolve_location (path_file_name fp)
              (i64_as_u32 (reqs.get ⟨i, h2⟩).line))).map (fun _ =>
              ({ name := some (path_file_name fp), path := some fp,
                 adapter_data := some id } : Source)))) := by
  induction reqs with
  | nil => intro s existing i h1 h2; exact absurd h2 (Nat.not_lt_zero i)
  | cons req rest ih =>
    intro s existing i h1 h2
    cases i with
    | zero =>
      have hget : (set_source_breakpoints s existing (req :: rest) fp).2.2.get
          ⟨0, h1⟩ = (set_source_bp_step s existing req fp).2.2 := rfl
      have hcond : (set_source_breakpoints s existing ((req :: rest).take 0) fp).2.1 =
          existing := rfl
      have hget2 : ((req :: rest).get ⟨0, h2⟩) = req := rfl
      rw [hget, hcond, hget2]
      cases hl : alookup existing req.line with
      | some bp_id =>
        constructor
        · intro _
          rw [step_existing_resp s existing req fp hl]
          exact ⟨rfl, rfl, rfl, bp_id, rfl⟩
        · intro hnc
          exact absurd rfl hnc
      | none =>
        constructor
        · intro hc
          simp at hc
        · intro _
          refine ⟨s.target.next_bp_id, ?_⟩
          cases hres : resolved_line_of_locations (s.target.resolve_location
              (path_file_name fp) (i64_as_u32 req.line)) with
          | some ln =>
            rw [step_new_resp_some s existing req fp ln hl hres]
            exact ⟨rfl, rfl, rfl, rfl⟩
          | none =>
            rw [step_new_resp_none s existing req fp hl hres]
            exact ⟨rfl, rfl, rfl, rfl⟩
    | succ j =>
      have h1' : j < (set_source_breakpoints (set_source_bp_step s existing req fp).1
          (set_source_bp_step s existing req fp).2.1 rest fp).2.2.length := by
        have := h1
        simp only [set_source_breakpoints, List.length_cons] at this
        exact Nat.lt_of_succ_lt_succ this
      have h2' : j < rest.length := Nat.lt_of_succ_lt_succ h2
      have hres := ih (set_source_bp_step s existing req fp).1
        (set_source_bp_step s existing req fp).2.1 j h1' h2'
      have hresolve : (set_source_bp_step s existing req fp).1.target.resolve_location =
          s.target.resolve_location := by
        cases hl : alookup existing req.line with
        | some bp_id => exact step_existing_resolve s existing req fp hl
        | none => exact step_new_resolve s existing req fp hl
      rw [hresolve] at hres
      exact hres

theorem del_engine_rev (removed : List (Int × BreakpointID)) :
    ∀ (s : Session) (id : BreakpointID),
      (alookup (delete_unrequested s removed).target.engine_bps id).isSome →
      (alookup s.target.engine_bps id).isSome := by
  intro s id h
  by_cases hmem : id ∈ removed.map Prod.snd
  · rw [(del_mem removed s id hmem).1] at h
    simp at h
  · rw [(del_not_mem removed s id hmem).1] at h
    exact h

theorem loop_map_members (fp : String) (reqs : List SourceBreakpoint) :
    ∀ (s : Session) (existing : List (Int × BreakpointID)) (p : Int × BreakpointID),
      p ∈ (set_source_breakpoints s existing reqs fp).2.1 →
      p ∈ existing ∨
        alookup (set_source_breakpoints s existing reqs fp).2.1 p.1 = some p.2 := by
  induction reqs with
  | nil => intro s existing p h; exact Or.inl h
  | cons req rest ih =>
    intro s existing p h
    simp only [set_source_breakpoints] at h ⊢
    rcases ih _ _ p h with h1 | h1
    · cases hl : alookup existing req.line with
      | some bp_id =>
        rw [step_existing_map s existing req fp hl] at h1
        exact Or.inl h1
      | none =>
        rw [step_new_map s existing req fp hl] at h1
        rcases mem_alinsert h1 with h2 | h2
        · right
          subst h2
          refine loop_map_stable fp rest _ _ _ _ ?_
          rw [step_new_map s existing req fp hl]
          exact alookup_alinsert_self _ _ _
        · exact Or.inl h2.1
    · exact Or.inr h1

theorem create_by_name_id (t : Target) (n : String) :
    (breakpoint_create_by_name t n).2 = t.next_bp_id := rfl

theorem create_by_regex_id (t : Target) (re : String) :
    (breakpoint_create_by_regex t re).2 = t.next_bp_id := rfl

theorem fstep_sb (s : Session) (new_fn : List (String × BreakpointID))
    (bp_req : FunctionBreakpoint) :
    (set_fn_bp_step s new_fn bp_req).1.source_breakpoints = s.source_breakpoints := by
  cases h : alookup s.fn_breakpoints bp_req.name with
  | some bp_id => simp [set_fn_bp_step, h]
  | none => simp [set_fn_bp_step, h]

theorem fstep_fn (s : Session) (new_fn : List (String × BreakpointID))
    (bp_req : FunctionBreakpoint) :
    (set_fn_bp_step s new_fn bp_req).1.fn_breakpoints = s.fn_breakpoints := by
  cases h : alookup s.fn_breakpoints bp_req.name with
  | some bp_id => simp [set_fn_bp_step, h]
  | none => simp [set_fn_bp_step, h]

theorem fstep_reg_mono (s : Session) (new_fn : List (String × BreakpointID))
    (bp_req : FunctionBreakpoint) (id : BreakpointID)
    (h : (alookup s.breakpoints id).isSome) :
    (alookup (set_fn_bp_step s new_fn bp_req).1.breakpoints id).isSome := by
  cases hf : alookup s.fn_breakpoints bp_req.name with
  | some bp_id =>
    simp only [set_fn_bp_step, hf]
    exact alookup_alinsert_isSome_mono _ _ h
  | none =>
    simp only [set_fn_bp_step, hf]
    exact alookup_alinsert_isSome_mono _ _ (alookup_alinsert_new_isSome_mono _ _ h)

theorem fstep_binding (s : Session) (new_fn : List (String × BreakpointID))
    (bp_req : FunctionBreakpoint) :
    ∃ bp_id, (set_fn_bp_step s new_fn bp_req).2.1 = alinsert new_fn bp_req.name bp_id ∧
      (alookup (set_fn_bp_step s new_fn bp_req).1.breakpoints bp_id).isSome := by
  cases hf : alookup s.fn_breakpoints bp_req.name with
  | some bp_id =>
    refine ⟨bp_id, ?_, ?_⟩
    · simp [set_fn_bp_step, hf]
    · simp [set_fn_bp_step, hf, alookup_alinsert_self]
  | none =>
    simp only [set_fn_bp_step, hf]
    exact ⟨_, rfl, by simp [alookup_alinsert_self]⟩

theorem floop_sb (reqs : List FunctionBreakpoint) :
    ∀ (s : Session) (new_fn : List (String × BreakpointID)),
      (set_fn_breakpoints_loop s reqs new_fn).1.source_breakpoints =
        s.source_breakpoints := by
  induction reqs with
  | nil => intro s new_fn; rfl
  | cons req rest ih =>
    intro s new_fn
    simp only [set_fn_breakpoints_loop]
    rw [ih, fstep_sb]

theorem floop_fnfield (reqs : List FunctionBreakpoint) :
    ∀ (s : Session) (new_fn : List (String × BreakpointID)),
      (set_fn_breakpoints_loop s reqs new_fn).1.fn_breakpoints = s.fn_breakpoints := by
  induction reqs with
  | nil => intro s new_fn; rfl
  | cons req rest ih =>
    intro s new_fn
    simp only [set_fn_breakpoints_loop]
    rw [ih, fstep_fn]

theorem floop_reg_mono (reqs : List FunctionBreakpoint) :
    ∀ (s : Session) (new_fn : List (String × BreakpointID)) (id : BreakpointID),
      (alookup s.breakpoints id).isSome →
      (alookup (set_fn_breakpoints_loop s reqs new_fn).1.breakpoints id).isSome := by
  induction reqs with
  | nil => intro s new_fn id h; exact h
  | cons req rest ih =>
    intro s new_fn id h
    simp only [set_fn_breakpoints_loop]
    exact ih _ _ _ (fstep_reg_mono s new_fn req id h)

theorem floop_keys_nodup (reqs : List FunctionBreakpoint) :
    ∀ (s : Session) (new_fn : List (String × BreakpointID)),
      (new_fn.map Prod.fst).Nodup →
      ((set_fn_breakpoints_loop s reqs new_fn).2.1.map Prod.fst).Nodup := by
  induction reqs with
  | nil => intro s new_fn h; exact h
  | cons req rest ih =>
    intro s new_fn h
    simp only [set_fn_breakpoints_loop]
    obtain ⟨bp_id, hnf, _⟩ := fstep_binding s new_fn req
    refine ih _ _ ?_
    rw [hnf]
    exact alinsert_keys_nodup _ _ h

theorem floop_incl (reqs : List FunctionBreakpoint) :
    ∀ (s : Session) (new_fn : List (String × BreakpointID)),
      (∀ name id, alookup new_fn name = some id → (alookup s.breakpoints id).isSome) →
      ∀ name id, alookup (set_fn_breakpoints_loop s reqs new_fn).2.1 name = some id →
        (alookup (set_fn_breakpoints_loop s reqs new_fn).1.breakpoints id).isSome := by
  induction reqs with
  | nil =>
    intro s new_fn hinv name id hb
    exact hinv name id hb
  | cons req rest ih =>
    intro s new_fn hinv name id hb
    simp only [set_fn_breakpoints_loop] at hb ⊢
    obtain ⟨bp_id, hnf, hreg⟩ := fstep_binding s new_fn req
    refine ih _ _ ?_ name id hb
    intro name' id' hb'
    rw [hnf] at hb'
    by_cases hname : req.name = name'
    · subst hname
      rw [alookup_alinsert_self] at hb'
      have : bp_id = id' := Option.some.inj hb'
      subst this
      exact hreg
    · rw [alookup_alinsert_ne _ _ hname] at hb'
      exact fstep_reg_mono s new_fn req id' (hinv name' id' hb')

theorem fdel_breakpoints (old_fn : List (String × BreakpointID)) :
    ∀ (s : Session) (new_fn : List (String × BreakpointID)),
      (delete_unrequested_fn s new_fn old_fn).breakpoints = s.breakpoints := by
  induction old_fn with
  | nil => intro s new_fn; rfl
  | cons p rest ih =>
    intro s new_fn
    rw [show delete_unrequested_fn s new_fn (p :: rest) =
      delete_unrequested_fn
        (if (alookup new_fn p.1).isSome then s
         else { s with target := breakpoint_delete s.target p.2 }) new_fn rest from rfl,
      ih]
    split <;> rfl

theorem fdel_sb (old_fn : List (String × BreakpointID)) :
    ∀ (s : Session) (new_fn : List (String × BreakpointID)),
      (delete_unrequested_fn s new_fn old_fn).source_breakpoints =
        s.source_breakpoints := by
  induction old_fn with
  | nil => intro s new_fn; rfl
  | cons p rest ih =>
    intro s new_fn
    rw [show delete_unrequested_fn s new_fn (p :: rest) =
      delete_unrequested_fn
        (if (alookup new_fn p.1).isSome then s
         else { s with target := breakpoint_delete s.target p.2 }) new_fn rest from rfl,
      ih]
    split <;> rfl

theorem fdel_engine_none_pres (old_fn : List (String × BreakpointID)) :
    ∀ (s : Session) (new_fn : List (String × BreakpointID)) (id : BreakpointID),
      alookup s.target.engine_bps id = none →
      alookup (delete_unrequested_fn s new_fn old_fn).target.engine_bps id = none := by
  induction old_fn with
  | nil => intro s new_fn id h; exact h
  | cons p rest ih =>
    intro s new_fn id h
    rw [show delete_unrequested_fn s new_fn (p :: rest) =
      delete_unrequested_fn
        (if (alookup new_fn p.1).isSome then s
         else { s with target := breakpoint_delete s.target p.2 }) new_fn rest from rfl]
    refine ih _ _ _ ?_
    split
    · exact h
    · show alookup (alerase s.target.engine_bps p.2) id = none
      by_cases hid : id = p.2
      · rw [hid, alookup_alerase_self]
      · rw [alookup_alerase_ne _ hid]
        exact h

theorem fdel_engine_mem (old_fn : List (String × BreakpointID)) :
    ∀ (s : Session) (new_fn : List (String × BreakpointID)) (p : String × BreakpointID),
      p ∈ old_fn → alookup new_fn p.1 = none →
      alookup (delete_unrequested_fn s new_fn old_fn).target.engine_bps p.2 = none := by
  induction old_fn with
  | nil => intro s new_fn p hp _; simp at hp
  | cons q rest ih =>
    intro s new_fn p hp hnone
    rw [show delete_unrequested_fn s new_fn (q :: rest) =
      delete_unrequested_fn
        (if (alookup new_fn q.1).isSome then s
         else { s with target := breakpoint_delete s.target q.2 }) new_fn rest from rfl]
    rw [List.mem_cons] at hp
    rcases hp with hp | hp
    · subst hp
      rw [if_neg (by rw [hnone]; simp)]
      refine fdel_engine_none_pres rest _ _ _ ?_
      show alookup (alerase s.target.engine_bps p.2) p.2 = none
      exact alookup_alerase_self _ _
    · exact ih _ _ p hp hnone

end Bp

end Adapter

/-!
C1: source breakpoint reconciliation.
-/

/-- C1: after `handle_set_breakpoints` for file `f` with requested line set
`L`, the file's key set equals `L`; breakpoints of dropped lines are
deleted from engine and registry; every line of `L` not previously present
gets exactly one newly created engine breakpoint (and every newly created
engine breakpoint belongs to exactly one such line, through the line map);
the response lists one `Breakpoint` per request entry in request order
with that entry's breakpoint id. -/
theorem C1_set_breakpoints_reconciliation (s : Bp.Session) (path : String)
    (requested_bps : List Bp.SourceBreakpoint)
    (h : set_breakpoints_hypotheses s path) :
    set_breakpoints_reconciliation s path requested_bps := by
  obtain ⟨hb_engine, hb_old, hnd⟩ := h
  set old := (alookup s.source_breakpoints (Bp.FileId.Filename path)).getD []
    with holdmap
  set keepP := fun p : Int × Bp.BreakpointID =>
    requested_bps.any (fun rbp => decide (rbp.line = p.1)) with hkeep
  set surv := old.filter keepP with hsurv
  set rem := old.filter (fun p => ! keepP p) with hrem
  set s1 : Bp.Session :=
    { s with source_breakpoints := alerase s.source_breakpoints (Bp.FileId.Filename path) }
    with hs1
  set s2 := Bp.delete_unrequested s1 rem with hs2
  have hfst_target : (Bp.handle_set_breakpoints s path requested_bps).1.target =
      (Bp.set_source_breakpoints s2 surv requested_bps path).1.target := rfl
  have hfst_bps : (Bp.handle_set_breakpoints s path requested_bps).1.breakpoints =
      (Bp.set_source_breakpoints s2 surv requested_bps path).1.breakpoints := rfl
  have hsnd : (Bp.handle_set_breakpoints s path requested_bps).2 =
      (Bp.set_source_breakpoints s2 surv requested_bps path).2.2 := rfl
  have hmap : (alookup (Bp.handle_set_breakpoints s path requested_bps).1.source_breakpoints
      (Bp.FileId.Filename path)).getD [] =
      (Bp.set_source_breakpoints s2 surv requested_bps path).2.1 := by
    have h0 : (Bp.handle_set_breakpoints s path requested_bps).1.source_breakpoints =
        alinsert (Bp.set_source_breakpoints s2 surv requested_bps path).1.source_breakpoints
          (Bp.FileId.Filename path)
          (Bp.set_source_breakpoints s2 surv requested_bps path).2.1 := rfl
    rw [h0, alookup_alinsert_self]
    rfl
  have hs2_next : s2.target.next_bp_id = s.target.next_bp_id := by
    rw [hs2, Bp.del_next]
  have hsurv_mem : ∀ l : Int, (alookup surv l).isSome →
      l ∈ requested_bps.map (fun rbp => rbp.line) := by
    intro l hl
    cases hv : alookup surv l with
    | none => rw [hv] at hl; simp at hl
    | some id =>
      have hmem := alookup_mem hv
      rw [hsurv, List.mem_filter] at hmem
      obtain ⟨hmo, hkp⟩ := hmem
      simp only [hkeep, List.any_eq_true, decide_eq_true_eq] at hkp
      obtain ⟨rbp, hrbp, hdec⟩ := hkp
      exact List.mem_map.mpr ⟨rbp, hrbp, hdec⟩
  have hold_surv : ∀ l : Int, (alookup old l).isSome →
      l ∈ requested_bps.map (fun rbp => rbp.line) → (alookup surv l).isSome := by
    intro l hl hline
    rw [hsurv]
    refine alookup_filter_key_true old keepP l ?_ hl
    intro v
    simp only [hkeep, List.any_eq_true, decide_eq_true_eq]
    obtain ⟨rbp, hrbp, hrl⟩ := List.mem_map.mp hline
    exact ⟨rbp, hrbp, hrl⟩
  have hsurv_none : ∀ l : Int, alookup old l = none → alookup surv l = none := by
    intro l hl
    cases hv : alookup surv l with
    | none => rfl
    | some id =>
      have hmem := alookup_mem hv
      rw [hsurv, List.mem_filter] at hmem
      have h2 := alookup_isSome_of_mem hmem.1
      rw [hl] at h2
      simp at h2
  have hrem_of_not_line : ∀ p : Int × Bp.BreakpointID, p ∈ old →
      ¬ p.1 ∈ requested_bps.map (fun rbp => rbp.line) → p ∈ rem := by
    intro p hp hnl
    rw [hrem, List.mem_filter]
    refine ⟨hp, ?_⟩
    cases hk : keepP p with
    | false => simp
    | true =>
      exfalso
      apply hnl
      simp only [hkeep, List.any_eq_true, decide_eq_true_eq] at hk
      obtain ⟨rbp, hrbp, hrl⟩ := hk
      exact List.mem_map.mpr ⟨rbp, hrbp, hrl⟩
  have hdisj : ∀ id, id ∈ rem.map Prod.snd → ∀ l, alookup surv l = some id → False := by
    intro id hidrem l hsurvl
    obtain ⟨p, hprem, hpid⟩ := List.mem_map.mp hidrem
    have hsurvmem := alookup_mem hsurvl
    rw [hrem, List.mem_filter] at hprem
    rw [hsurv, List.mem_filter] at hsurvmem
    have heq : p = (l, id) :=
      List.inj_on_of_nodup_map hnd hprem.1 hsurvmem.1 hpid
    have h1 := hprem.2
    rw [heq, hsurvmem.2] at h1
    simp at h1
  refine ⟨?_, ?_, ?_, ?_, ?_, ?_⟩
  · -- (a) key set equality
    intro l
    rw [hmap, Bp.loop_map_iff]
    constructor
    · rintro (hh | hh)
      · exact hsurv_mem l hh
      · exact hh
    · intro hh
      exact Or.inr hh
  · -- (b) dropped lines are deleted from engine and registry
    intro p hp hnl
    have hprem := hrem_of_not_line p hp hnl
    have hidrem : p.2 ∈ rem.map Prod.snd := List.mem_map.mpr ⟨p, hprem, rfl⟩
    have hpbound : p.2 < s.target.next_bp_id := hb_old p hp
    have hs2_engine_none : alookup s2.target.engine_bps p.2 = none := by
      rw [hs2]
      exact (Bp.del_mem rem s1 p.2 hidrem).1
    have hs2_reg_none : alookup s2.breakpoints p.2 = none := by
      rw [hs2]
      exact (Bp.del_mem rem s1 p.2 hidrem).2
    constructor
    · rw [show (Bp.handle_set_breakpoints s path requested_bps).1.target =
        (Bp.set_source_breakpoints s2 surv requested_bps path).1.target from hfst_target]
      cases hq : alookup
          (Bp.set_source_breakpoints s2 surv requested_bps path).1.target.engine_bps p.2 with
      | none => rfl
      | some bp =>
        exfalso
        have hsome : (alookup (Bp.set_source_breakpoints s2 surv requested_bps
            path).1.target.engine_bps p.2).isSome := by rw [hq]; rfl
        rcases Bp.loop_engine_rev path requested_bps s2 surv p.2 hsome with hh | hh
        · rw [hs2_engine_none] at hh
          simp at hh
        · rw [hs2_next] at hh
          exact Nat.lt_irrefl _ (Nat.lt_of_lt_of_le hpbound hh)
    · rw [show (Bp.handle_set_breakpoints s path requested_bps).1.breakpoints =
        (Bp.set_source_breakpoints s2 surv requested_bps path).1.breakpoints from hfst_bps]
      cases hq : alookup
          (Bp.set_source_breakpoints s2 surv requested_bps path).1.breakpoints p.2 with
      | none => rfl
      | some info =>
        exfalso
        have hsome : (alookup (Bp.set_source_breakpoints s2 surv requested_bps
            path).1.breakpoints p.2).isSome := by rw [hq]; rfl
        rcases Bp.loop_reg_rev path requested_bps s2 surv p.2 hsome with hh | hh | hh
        · rw [hs2_reg_none] at hh
          simp at hh
        · obtain ⟨l, hll⟩ := hh
          exact hdisj p.2 hidrem l hll
        · rw [hs2_next] at hh
          exact Nat.lt_irrefl _ (Nat.lt_of_lt_of_le hpbound hh)
  · -- (c) previously absent lines get a fresh engine breakpoint
    intro l hline holdnone
    have hsurvnone : alookup surv l = none := hsurv_none l holdnone
    have hf2 : ∀ id, s2.target.next_bp_id ≤ id →
        alookup s2.target.engine_bps id = none := by
      intro id hle
      rw [hs2]
      refine Bp.del_engine_none_pres rem s1 id ?_
      show alookup s.target.engine_bps id = none
      rw [hs2_next] at hle
      exact alookup_eq_none_of_bound hb_engine (Nat.not_lt.mpr hle)
    obtain ⟨id, bp, hmp, hle, hn2, hafter, hspec⟩ :=
      Bp.loop_new_line path requested_bps s2 surv l hf2 hsurvnone hline
    rw [hs2_next] at hle
    refine ⟨id, bp, ?_, ?_, ?_, hspec⟩
    · rw [hmap]
      exact hmp
    · exact alookup_eq_none_of_bound hb_engine (Nat.not_lt.mpr hle)
    · rw [show (Bp.handle_set_breakpoints s path requested_bps).1.target =
        (Bp.set_source_breakpoints s2 surv requested_bps path).1.target from hfst_target]
      exact hafter
  · -- (c') every newly created engine breakpoint belongs to a new line
    intro id hsome hnone
    have hnone2 : alookup s2.target.engine_bps id = none := by
      rw [hs2]
      by_cases hmem : id ∈ rem.map Prod.snd
      · exact (Bp.del_mem rem s1 id hmem).1
      · rw [(Bp.del_not_mem rem s1 id hmem).1]
        exact hnone
    rw [show (Bp.handle_set_breakpoints s path requested_bps).1.target =
      (Bp.set_source_breakpoints s2 surv requested_bps path).1.target from hfst_target]
      at hsome
    obtain ⟨l, hline, hsn, hmp⟩ :=
      Bp.loop_engine_new_rev path requested_bps s2 surv id hsome hnone2
    refine ⟨l, hline, ?_, ?_⟩
    · cases hv : alookup old l with
      | none => rfl
      | some v =>
        exfalso
        have hos : (alookup old l).isSome := by rw [hv]; rfl
        have h2 := hold_surv l hos hline
        rw [hsn] at h2
        simp at h2
    · rw [hmap]
      exact hmp
  · -- one response entry per request entry
    rw [hsnd, Bp.loop_resp_length]
  · -- response entries carry the entry's breakpoint id, in order
    intro i h1 h2
    rw [hmap]
    exact Bp.loop_resp_ids path requested_bps s2 surv i h1 h2

/-- Witness for C1: the S3 scenario (lines 10 and 20 exist; lines 10 and
30 are requested). -/
theorem C1_witness :
    set_breakpoints_hypotheses s3_state "main.c" ∧
    set_breakpoints_reconciliation s3_state "main.c" s3_request :=
  ⟨by unfold set_breakpoints_hypotheses; decide,
   C1_set_breakpoints_reconciliation s3_state "main.c" s3_request
     (by unfold set_breakpoints_hypotheses; decide)⟩

/-- Counterexample to C4 as stated: file `main.c` has an existing
breakpoint at line 10 (engine id 1) whose registry entry has
`resolved_line = None`; re-requesting line 10 returns
`verified = true` (set unconditionally in the existing-breakpoint branch,
debug_session.rs:371) although `resolved_line.is_some()` is false, and no
line/source is attached. -/
theorem C4_counterexample :
    (Bp.handle_set_breakpoints unresolved_state "main.c" [⟨10, none, none⟩]).2 =
      [{ id := some 1, verified := true, line := none, source := none }] ∧
    ((alookup (Bp.handle_set_breakpoints unresolved_state "main.c"
        [⟨10, none, none⟩]).1.breakpoints 1).map Bp.info_resolved_line) = some none := by
  constructor
  · decide
  · decide

/-- C4 as amended: a response entry of `handle_set_breakpoints` whose line
already had a breakpoint when it was processed (present for the file before
the request, or created by an earlier entry of the same request) is
reported `verified = true` with no line/source attached; an entry for which
a breakpoint is newly created is reported with
`verified = resolved_line.is_some()` and carries the resolved line and
source exactly when the line resolved. -/
theorem C4_breakpoint_response_verified (s : Bp.Session) (path : String)
    (requested_bps : List Bp.SourceBreakpoint) :
    set_breakpoints_response_shape s path requested_bps := by
  set old := (alookup s.source_breakpoints (Bp.FileId.Filename path)).getD []
    with holdmap
  set keepP := fun p : Int × Bp.BreakpointID =>
    requested_bps.any (fun rbp => decide (rbp.line = p.1)) with hkeep
  set surv := old.filter keepP with hsurv
  set rem := old.filter (fun p => ! keepP p) with hrem
  set s1 : Bp.Session :=
    { s with source_breakpoints := alerase s.source_breakpoints (Bp.FileId.Filename path) }
    with hs1
  set s2 := Bp.delete_unrequested s1 rem with hs2
  have hsnd : (Bp.handle_set_breakpoints s path requested_bps).2 =
      (Bp.set_source_breakpoints s2 surv requested_bps path).2.2 := rfl
  have hresolve2 : s2.target.resolve_location = s.target.resolve_location := by
    rw [hs2, Bp.del_resolve]
  refine ⟨?_, ?_⟩
  · rw [hsnd, Bp.loop_resp_length]
  · intro i h1 h2
    have hres := Bp.loop_resp_shape path requested_bps s2 surv i h1 h2
    rw [hresolve2] at hres
    have hline_mem : requested_bps.get ⟨i, h2⟩ ∈ requested_bps :=
      List.get_mem requested_bps i h2
    have hsurv_iff : (alookup surv (requested_bps.get ⟨i, h2⟩).line).isSome ↔
        (alookup old (requested_bps.get ⟨i, h2⟩).line).isSome := by
      constructor
      · intro hf
        obtain ⟨v, hv⟩ := Option.isSome_iff_exists.mp hf
        have hm := alookup_mem hv
        rw [hsurv] at hm
        exact alookup_isSome_of_mem (List.mem_filter.mp hm).1
      · intro hf
        rw [hsurv]
        refine alookup_filter_key_true old keepP _ ?_ hf
        intro v
        show requested_bps.any
          (fun rbp => decide (rbp.line = (requested_bps.get ⟨i, h2⟩).line)) = true
        simp only [List.any_eq_true, decide_eq_true_eq]
        exact ⟨requested_bps.get ⟨i, h2⟩, hline_mem, rfl⟩
    have hiff := Bp.loop_map_iff path (requested_bps.take i) s2 surv
      (requested_bps.get ⟨i, h2⟩).line
    exact ⟨fun hc => hres.1 (hiff.mpr
            (hc.elim (fun h => Or.inl (hsurv_iff.mpr h)) Or.inr)),
          fun hnc => hres.2 (fun hcl => hnc
            ((hiff.mp hcl).elim (fun h => Or.inl (hsurv_iff.mp h)) Or.inr))⟩

/-- Witness for C4's amended theorem: the S3 scenario. -/
theorem C4_witness : set_breakpoints_response_shape s3_state "main.c" s3_request :=
  C4_breakpoint_response_verified s3_state "main.c" s3_request

/-- Counterexample to C2 as stated: dropping the function breakpoint `"f"`
(engine id 1) removes it from the `fn_breakpoints` index and deletes it in
the engine, but its entry is NOT removed from the `breakpoints` registry —
`handle_set_function_breakpoints` only calls `breakpoint_delete`
(debug_session.rs:472-477), unlike `handle_set_breakpoints`
(debug_session.rs:341). -/
theorem C2_counterexample :
    (Bp.handle_set_function_breakpoints fn_state []).1.fn_breakpoints = [] ∧
    alookup (Bp.handle_set_function_breakpoints fn_state []).1.target.engine_bps 1 =
      none ∧
    alookup (Bp.handle_set_function_breakpoints fn_state []).1.breakpoints 1 =
      some ⟨1, Bp.BreakpointKind.Function, none, none, 0⟩ := by
  refine ⟨?_, ?_, ?_⟩ <;> decide

/-- C2 as amended: both breakpoint handlers preserve the invariant that
every id stored in the `source_breakpoints` or `fn_breakpoints` index is a
key of the `breakpoints` registry; an id removed from the source index is
removed from the registry and deleted in the engine, while an id removed
from the function index is deleted in the engine but keeps its registry
entry. -/
theorem C2_registry_invariant (s : Bp.Session) (h : registry_hypotheses s) :
    registry_invariant_conclusion s := by
  obtain ⟨hreg, hnd, hbound⟩ := h
  have hnd' := hnd
  unfold Bp.bp_index_values at hnd'
  rw [List.nodup_append] at hnd'
  obtain ⟨hnd_src, hnd_fn, hdisj_sf⟩ := hnd'
  have hnd_src' := hnd_src
  unfold Bp.source_index_values at hnd_src'
  obtain ⟨hchunks, hpair⟩ := List.nodup_flatten.mp hnd_src'
  have hpair' : s.source_breakpoints.Pairwise
      (fun a b => List.Disjoint (a.2.map Prod.snd) (b.2.map Prod.snd)) :=
    List.pairwise_map.mp hpair
  constructor
  · -- Part A: handle_set_breakpoints
    intro path requested_bps
    set old := (alookup s.source_breakpoints (Bp.FileId.Filename path)).getD []
      with holdmap
    set keepP := fun p : Int × Bp.BreakpointID =>
      requested_bps.any (fun rbp => decide (rbp.line = p.1)) with hkeep
    set surv := old.filter keepP with hsurv
    set rem := old.filter (fun p => ! keepP p) with hrem
    set s1 : Bp.Session :=
      { s with source_breakpoints := alerase s.source_breakpoints (Bp.FileId.Filename path) }
      with hs1
    set s2 := Bp.delete_unrequested s1 rem with hs2
    have hfst_target : (Bp.handle_set_breakpoints s path requested_bps).1.target =
        (Bp.set_source_breakpoints s2 surv requested_bps path).1.target := rfl
    have hfst_bps : (Bp.handle_set_breakpoints s path requested_bps).1.breakpoints =
        (Bp.set_source_breakpoints s2 surv requested_bps path).1.breakpoints := rfl
    have hs2_next : s2.target.next_bp_id = s.target.next_bp_id := by
      rw [hs2, Bp.del_next]
    have hs'_sb : (Bp.handle_set_breakpoints s path requested_bps).1.source_breakpoints =
        alinsert (alerase s.source_breakpoints (Bp.FileId.Filename path))
          (Bp.FileId.Filename path)
          (Bp.set_source_breakpoints s2 surv requested_bps path).2.1 := by
      have h0 : (Bp.handle_set_breakpoints s path requested_bps).1.source_breakpoints =
          alinsert (Bp.set_source_breakpoints s2 surv requested_bps path).1.source_breakpoints
            (Bp.FileId.Filename path)
            (Bp.set_source_breakpoints s2 surv requested_bps path).2.1 := rfl
      rw [h0, Bp.loop_sb, hs2, Bp.del_sb]
    have hs'_fn : (Bp.handle_set_breakpoints s path requested_bps).1.fn_breakpoints =
        s.fn_breakpoints := by
      have h0 : (Bp.handle_set_breakpoints s path requested_bps).1.fn_breakpoints =
          (Bp.set_source_breakpoints s2 surv requested_bps path).1.fn_breakpoints := rfl
      rw [h0, Bp.loop_fn, hs2, Bp.del_fn]
    have hold_mem_src : ∀ id, id ∈ old.map Prod.snd → id ∈ Bp.source_index_values s := by
      intro id hid
      cases hsb : alookup s.source_breakpoints (Bp.FileId.Filename path) with
      | none =>
        rw [holdmap, hsb] at hid
        simp at hid
      | some m =>
        have hold_m : old = m := by rw [holdmap, hsb]; rfl
        rw [hold_m] at hid
        unfold Bp.source_index_values
        exact List.mem_flatten.mpr
          ⟨m.map Prod.snd, List.mem_map.mpr ⟨(Bp.FileId.Filename path, m),
            alookup_mem hsb, rfl⟩, hid⟩
    have hold_mem : ∀ id, id ∈ old.map Prod.snd → id ∈ Bp.bp_index_values s := by
      intro id hid
      unfold Bp.bp_index_values
      exact List.mem_append_left _ (hold_mem_src id hid)
    have hD1 : (old.map Prod.snd).Nodup := by
      cases hsb : alookup s.source_breakpoints (Bp.FileId.Filename path) with
      | none =>
        rw [holdmap, hsb]
        simp
      | some m =>
        have hold_m : old = m := by rw [holdmap, hsb]; rfl
        rw [hold_m]
        exact hchunks (m.map Prod.snd)
          (List.mem_map.mpr ⟨(Bp.FileId.Filename path, m), alookup_mem hsb, rfl⟩)
    have hbound_old : ∀ p ∈ old, p.2 < s.target.next_bp_id := by
      intro p hp
      exact hbound _ (hold_mem p.2 (List.mem_map.mpr ⟨p, hp, rfl⟩))
    have hrem_values : ∀ id, id ∈ rem.map Prod.snd → id ∈ old.map Prod.snd := by
      intro id hid
      obtain ⟨q, hq, hqid⟩ := List.mem_map.mp hid
      rw [hrem] at hq
      exact List.mem_map.mpr ⟨q, (List.mem_filter.mp hq).1, hqid⟩
    have hnotrem_of_surv : ∀ p, p ∈ surv → ¬ p.2 ∈ rem.map Prod.snd := by
      intro p hpsurv hmem
      obtain ⟨q, hqrem, hqid⟩ := List.mem_map.mp hmem
      rw [hsurv] at hpsurv
      rw [hrem] at hqrem
      have hq := List.mem_filter.mp hqrem
      have hpf := List.mem_filter.mp hpsurv
      have heq : q = p := List.inj_on_of_nodup_map hD1 hq.1 hpf.1 hqid
      have h1 := hq.2
      rw [heq, hpf.2] at h1
      simp at h1
    have hpres : ∀ id, id ∈ Bp.bp_index_values s → ¬ id ∈ rem.map Prod.snd →
        (alookup (Bp.handle_set_breakpoints s path requested_bps).1.breakpoints
          id).isSome := by
      intro id hidx hnm
      have hsome := hreg _ hidx
      have h2 : (alookup s2.breakpoints id).isSome := by
        rw [hs2, (Bp.del_not_mem rem s1 id hnm).2]
        exact hsome
      rw [hfst_bps]
      exact Bp.loop_reg_mono path requested_bps s2 surv id h2
    constructor
    · -- inclusion invariant after the source handler
      intro id hid
      unfold Bp.bp_index_values Bp.source_index_values at hid
      rw [hs'_sb, hs'_fn] at hid
      rcases List.mem_append.mp hid with hsrcm | hfnm
      · obtain ⟨chunk, hchunkmem, hidchunk⟩ := List.mem_flatten.mp hsrcm
        obtain ⟨e, he, hchunk_eq⟩ := List.mem_map.mp hchunkmem
        subst hchunk_eq
        rcases mem_alinsert he with he1 | he2
        · -- this file's new line map
          subst he1
          obtain ⟨p, hpex, hpid⟩ := List.mem_map.mp hidchunk
          subst hpid
          rcases Bp.loop_map_members path requested_bps s2 surv p hpex with hpsurv | hpbind
          · have hpold : p ∈ old := by
              rw [hsurv] at hpsurv
              exact (List.mem_filter.mp hpsurv).1
            exact hpres p.2 (hold_mem p.2 (List.mem_map.mpr ⟨p, hpold, rfl⟩))
              (hnotrem_of_surv p hpsurv)
          · have hinv : ∀ l idd, alookup surv l = some idd →
                l ∈ requested_bps.map (fun r => r.line) ∨
                (alookup s2.breakpoints idd).isSome := by
              intro l idd hb
              left
              have hmem := alookup_mem hb
              rw [hsurv, List.mem_filter] at hmem
              obtain ⟨hmo, hkp⟩ := hmem
              simp only [hkeep, List.any_eq_true, decide_eq_true_eq] at hkp
              obtain ⟨rbp, hrbp, hdec⟩ := hkp
              exact List.mem_map.mpr ⟨rbp, hrbp, hdec⟩
            rw [hfst_bps]
            exact Bp.loop_reg_incl path requested_bps s2 surv hinv p.1 p.2 hpbind
        · -- another file's line map
          have he3 := mem_alerase he2.1
          have hidx : id ∈ Bp.bp_index_values s := by
            unfold Bp.bp_index_values Bp.source_index_values
            exact List.mem_append_left _
              (List.mem_flatten.mpr ⟨e.2.map Prod.snd,
                List.mem_map.mpr ⟨e, he3.1, rfl⟩, hidchunk⟩)
          refine hpres id hidx ?_
          intro hmem
          have hido := hrem_values id hmem
          cases hsb : alookup s.source_breakpoints (Bp.FileId.Filename path) with
          | none =>
            rw [holdmap, hsb] at hido
            simp at hido
          | some m =>
            have hold_m : old = m := by rw [holdmap, hsb]; rfl
            rw [hold_m] at hido
            have hfid_mem : (Bp.FileId.Filename path, m) ∈ s.source_breakpoints :=
              alookup_mem hsb
            have hne_pairs : (Bp.FileId.Filename path, m) ≠ e := by
              intro heq
              apply he3.2
              rw [← heq]
            have hdisj := List.Pairwise.forall
              (fun a b hd => List.Disjoint.symm hd) hpair' hfid_mem he3.1 hne_pairs
            exact hdisj hido hidchunk
      · -- the function index is untouched
        have hidx : id ∈ Bp.bp_index_values s := by
          unfold Bp.bp_index_values
          exact List.mem_append_right _ hfnm
        refine hpres id hidx ?_
        intro hmem
        exact hdisj_sf (hold_mem_src id (hrem_values id hmem)) hfnm
    · -- dropped lines: removed from registry and deleted in the engine
      intro p hp hnl
      have hprem : p ∈ rem := by
        rw [hrem, List.mem_filter]
        refine ⟨hp, ?_⟩
        cases hk : keepP p with
        | false => simp
        | true =>
          exfalso
          apply hnl
          simp only [hkeep, List.any_eq_true, decide_eq_true_eq] at hk
          obtain ⟨rbp, hrbp, hrl⟩ := hk
          exact List.mem_map.mpr ⟨rbp, hrbp, hrl⟩
      have hidrem : p.2 ∈ rem.map Prod.snd := List.mem_map.mpr ⟨p, hprem, rfl⟩
      have hpbound : p.2 < s.target.next_bp_id := hbound_old p hp
      have hs2_engine_none : alookup s2.target.engine_bps p.2 = none := by
        rw [hs2]
        exact (Bp.del_mem rem s1 p.2 hidrem).1
      have hs2_reg_none : alookup s2.breakpoints p.2 = none := by
        rw [hs2]
        exact (Bp.del_mem rem s1 p.2 hidrem).2
      constructor
      · rw [hfst_bps]
        cases hq : alookup
            (Bp.set_source_breakpoints s2 surv requested_bps path).1.breakpoints p.2 with
        | none => rfl
        | some info =>
          exfalso
          have hsome : (alookup (Bp.set_source_breakpoints s2 surv requested_bps
              path).1.breakpoints p.2).isSome := by rw [hq]; rfl
          rcases Bp.loop_reg_rev path requested_bps s2 surv p.2 hsome with hh | hh | hh
          · rw [hs2_reg_none] at hh
            simp at hh
          · obtain ⟨l, hll⟩ := hh
            have hlm := alookup_mem hll
            rw [hsurv] at hlm
            exact hnotrem_of_surv (l, p.2) (by rw [hsurv]; exact hlm) hidrem
          · rw [hs2_next] at hh
            exact Nat.lt_irrefl _ (Nat.lt_of_lt_of_le hpbound hh)
      · rw [hfst_target]
        cases hq : alookup
            (Bp.set_source_breakpoints s2 surv requested_bps path).1.target.engine_bps
            p.2 with
        | none => rfl
        | some bp =>
          exfalso
          have hsome : (alookup (Bp.set_source_breakpoints s2 surv requested_bps
              path).1.target.engine_bps p.2).isSome := by rw [hq]; rfl
          rcases Bp.loop_engine_rev path requested_bps s2 surv p.2 hsome with hh | hh
          · rw [hs2_engine_none] at hh
            simp at hh
          · rw [hs2_next] at hh
            exact Nat.lt_irrefl _ (Nat.lt_of_lt_of_le hpbound hh)
  · -- Part B: handle_set_function_breakpoints
    intro requested
    have hB_bps : (Bp.handle_set_function_breakpoints s requested).1.breakpoints =
        (Bp.set_fn_breakpoints_loop s requested []).1.breakpoints := by
      have h0 : (Bp.handle_set_function_breakpoints s requested).1.breakpoints =
          (Bp.delete_unrequested_fn (Bp.set_fn_breakpoints_loop s requested []).1
            (Bp.set_fn_breakpoints_loop s requested []).2.1
            (Bp.set_fn_breakpoints_loop s requested []).1.fn_breakpoints).breakpoints :=
        rfl
      rw [h0, Bp.fdel_breakpoints]
    have hB_sb : (Bp.handle_set_function_breakpoints s requested).1.source_breakpoints =
        s.source_breakpoints := by
      have h0 : (Bp.handle_set_function_breakpoints s requested).1.source_breakpoints =
          (Bp.delete_unrequested_fn (Bp.set_fn_breakpoints_loop s requested []).1
            (Bp.set_fn_breakpoints_loop s requested []).2.1
            (Bp.set_fn_breakpoints_loop s requested []).1.fn_breakpoints).source_breakpoints :=
        rfl
      rw [h0, Bp.fdel_sb, Bp.floop_sb]
    have hB_fn : (Bp.handle_set_function_breakpoints s requested).1.fn_breakpoints =
        (Bp.set_fn_breakpoints_loop s requested []).2.1 := rfl
    constructor
    · -- inclusion invariant after the function handler
      intro id hid
      unfold Bp.bp_index_values Bp.source_index_values at hid
      rw [hB_sb, hB_fn] at hid
      rcases List.mem_append.mp hid with hsrcm | hfnm
      · have hidx : id ∈ Bp.bp_index_values s := by
          unfold Bp.bp_index_values Bp.source_index_values
          exact List.mem_append_left _ hsrcm
        rw [hB_bps]
        exact Bp.floop_reg_mono requested s [] id (hreg _ hidx)
      · obtain ⟨p, hp, hpid⟩ := List.mem_map.mp hfnm
        subst hpid
        have hkeys : (((Bp.set_fn_breakpoints_loop s requested []).2.1).map
            Prod.fst).Nodup := by
          refine Bp.floop_keys_nodup requested s [] ?_
          simp
        have hbind := alookup_of_mem_of_nodup_keys hkeys hp
        have hinv : ∀ name idd, alookup ([] : List (String × Bp.BreakpointID)) name =
            some idd → (alookup s.breakpoints idd).isSome := by
          intro name idd hb
          simp [alookup] at hb
        rw [hB_bps]
        exact Bp.floop_incl requested s [] hinv p.1 p.2 hbind
    · -- dropped names: deleted in the engine, registry entry kept
      intro p hp hname
      rw [hB_fn] at hname
      constructor
      · have hp_loop : p ∈ (Bp.set_fn_breakpoints_loop s requested []).1.fn_breakpoints := by
          rw [Bp.floop_fnfield]
          exact hp
        have h0 : (Bp.handle_set_function_breakpoints s requested).1.target =
            (Bp.delete_unrequested_fn (Bp.set_fn_breakpoints_loop s requested []).1
              (Bp.set_fn_breakpoints_loop s requested []).2.1
              (Bp.set_fn_breakpoints_loop s requested []).1.fn_breakpoints).target := rfl
        rw [h0]
        exact Bp.fdel_engine_mem _ _ _ p hp_loop hname
      · intro hsome
        rw [hB_bps]
        exact Bp.floop_reg_mono requested s [] p.2 hsome

/-- Witness for C2's amended theorem: the S3 scenario state. -/
theorem C2_witness :
    registry_hypotheses s3_state ∧ registry_invariant_conclusion s3_state :=
  ⟨by unfold registry_hypotheses Bp.registry_inv Bp.bp_index_values
        Bp.source_index_values
      decide,
   C2_registry_invariant s3_state
     (by unfold registry_hypotheses Bp.registry_inv Bp.bp_index_values
           Bp.source_index_values
         decide)⟩

